import Mathlib

/-!
# DigiBridge: two-factor enrollment and verification

A shallow embedding of `backend/models/User.js`, `backend/routes/auth.js` and the
startup sequence of `backend/server.js`.

* The `User` collection is a list of documents; `findOne`, `save` follow Mongoose.
* The handlers `POST /profile` and `POST /verify` are state-passing functions on a
  `World` (collection, ObjectId counter, number of secrets drawn, log of library calls).
* The third-party libraries are not part of the repository.  The handlers are written
  over a parameter `Lib` (secret generator, `authenticator.verify`, QR encoder), and the
  properties that hold whatever the libraries do are proved for every `Lib`.  Where a
  property depends on what a library does, that part is written out: `jwtSign` for
  `jsonwebtoken`, and the TOTP check of `otplib` (`authenticatorVerify`, `otplib`), which
  the examples use as their library.
* On the sources as they are, `routes/dashboard.js` requires a module that is absent;
  `startServer` takes whether it resolves as a parameter.
* Request bodies carry string values; `none` stands for a key that is absent from the
  body (JavaScript `undefined`).
-/

namespace DigiBridge

/-! ## Data model (models/User.js) -/

/-- A document of the `User` collection.  `none` is an unset path. -/
structure User where
  _id : Nat
  email : String
  phone : Option String
  firstName : Option String
  lastName : Option String
  village : Option String
  ageRange : Option String
  educationLevel : Option String
  occupation : Option String
  experienceLevel : Option String
  totpSecret : Option String
  twoFactorEnabled : Bool
deriving DecidableEq, Repr

/-- The document built by `new User({ email })`: only `email` is given, `twoFactorEnabled`
takes its schema default `false`, every other path is unset. -/
def User.create (id : Nat) (email : String) : User :=
  { _id := id, email := email, phone := none, firstName := none, lastName := none,
    village := none, ageRange := none, educationLevel := none, occupation := none,
    experienceLevel := none, totpSecret := none, twoFactorEnabled := false }

/-- JavaScript falsiness of a string-valued path: `undefined` and the empty string. -/
def falsy : Option String → Bool
  | none => true
  | some s => decide (s = "")

/-- The query `User.findOne({ email })`: the first document with that email. -/
def findOne (email : String) : List User → Option User
  | [] => none
  | u :: us => if u.email = email then some u else findOne email us

/-- The document stored under an `_id` (first match). -/
def findById (id : Nat) : List User → Option User
  | [] => none
  | u :: us => if u._id = id then some u else findById id us

/-- The write `updateOne({ _id: doc._id }, ...)` issued by `save` on a loaded document:
the first document with that `_id` takes the content of `doc`. -/
def updateOne (doc : User) : List User → List User
  | [] => []
  | u :: us => if u._id = doc._id then doc :: us else u :: updateOne doc us

/-- The call `doc.save()`.  `none` is a rejected save (the promise rejects):
the `required` validator of `email` fails on an empty string, and the unique index on
`email` refuses to insert a second document with an email that is already stored.
A new document is inserted, a loaded one is updated in place. -/
def save (users : List User) (doc : User) (isNew : Bool) : Option (List User) :=
  if doc.email = "" then none
  else if isNew then
    if (findOne doc.email users).isSome then none else some (users ++ [doc])
  else some (updateOne doc users)

/-- Stored documents have pairwise distinct `_id`s. -/
def DistinctIds (users : List User) : Prop := (users.map User._id).Nodup

instance (users : List User) : Decidable (DistinctIds users) := by
  unfold DistinctIds; infer_instance

/-! ## Requests, responses, libraries -/

/-- The body of `POST /profile`.  `rest` holds every other key the client sent. -/
structure ProfileBody where
  email : String
  firstName : Option String
  lastName : Option String
  phone : Option String
  village : Option String
  ageRange : Option String
  educationLevel : Option String
  occupation : Option String
  experienceLevel : Option String
  rest : List (String × String)
deriving DecidableEq, Repr

/-- The body of `POST /verify`. -/
structure VerifyBody where
  email : String
  token : Option String
  rest : List (String × String)
deriving DecidableEq, Repr

/-- The provisioning URI `authenticator.keyuri(accountName, issuer, secret)`, kept as its
three components. -/
structure KeyUri where
  accountName : String
  issuer : String
  secret : Option String
deriving DecidableEq, Repr

/-- The call `otplib.authenticator.keyuri(email, "DigiBridge", user.totpSecret)`. -/
def keyuri (accountName issuer : String) (secret : Option String) : KeyUri :=
  { accountName := accountName, issuer := issuer, secret := secret }

/-- A token made by `jwt.sign`: the payload, the two registered time claims (seconds) and
the key it was signed with. -/
structure Jwt where
  id : Nat
  email : String
  iat : Nat
  exp : Nat
  signedWith : String
deriving DecidableEq, Repr

/-- The span `"1h"` passed as `expiresIn`, in seconds. -/
def oneHour : Nat := 60 * 60

/-- The call `jwt.sign({ id, email }, secretOrPrivateKey, { expiresIn })` at time `now`
(seconds): jsonwebtoken throws (`none`) when the key is missing or empty, otherwise the
token carries `iat = now` and `exp = iat + expiresIn`. -/
def jwtSign (id : Nat) (email : String) (secretOrPrivateKey : Option String)
    (expiresIn : Nat) (now : Nat) : Option Jwt :=
  match secretOrPrivateKey with
  | none => none
  | some key =>
    if key = "" then none
    else some { id := id, email := email, iat := now, exp := now + expiresIn, signedWith := key }

/-- The JSON body of a response. -/
inductive Body where
  /-- The body `{ message: "Profile saved", qrCodeDataURL }`; the image is kept as the URI
  it encodes. -/
  | profileSaved (qrCodeDataURL : KeyUri)
  /-- The body `{ message: "2FA verified", token }`. -/
  | verified (token : Jwt)
  /-- The body `{ error }`. -/
  | error (error : String)
deriving DecidableEq, Repr

/-- An HTTP response: status code and JSON body. -/
structure Response where
  status : Nat
  body : Body
deriving DecidableEq, Repr

/-- The response of both `catch` blocks: `res.status(500).json({ error: "Server error" })`. -/
def serverError : Response := { status := 500, body := Body.error "Server error" }

/-- The session credential a response carries, if any. -/
def Response.credential (r : Response) : Option Jwt :=
  match r.body with
  | Body.verified t => some t
  | _ => none

/-- The provisioning URI a response carries, if any. -/
def Response.artifact (r : Response) : Option KeyUri :=
  match r.body with
  | Body.profileSaved uri => some uri
  | _ => none

/-- A call into a library or the database, as recorded in the log. -/
inductive Call where
  | generateSecret
  | totpVerify (token : Option String) (secret : Option String)
  | saved (doc : User)
  | jwtSign (id : Nat) (email : String) (key : Option String)
deriving DecidableEq, Repr

/-- The libraries the handlers call, as parameters.
* `generateSecret n` is what the `n`-th call of `authenticator.generateSecret()` returns;
* `verify token secret now` is `authenticator.verify({ token, secret })` run at time `now`
  (`none`: the call throws);
* `toDataURL uri` tells whether `qrcode.toDataURL` can encode the URI (`false`: it throws). -/
structure Lib where
  generateSecret : Nat → String
  verify : Option String → Option String → Nat → Option Bool
  toDataURL : KeyUri → Bool

/-- The state the handlers act on. -/
structure World where
  users : List User
  nextId : Nat
  drawn : Nat
  log : List Call
deriving DecidableEq, Repr

/-! ## POST /profile (routes/auth.js) -/

/-- The merge `Object.assign(user, { firstName, ..., experienceLevel })`: the literal has
all eight keys, so each of the eight paths is assigned, an absent body key as `undefined`. -/
def assignProfile (user : User) (b : ProfileBody) : User :=
  { user with
    firstName := b.firstName, lastName := b.lastName, phone := b.phone, village := b.village,
    ageRange := b.ageRange, educationLevel := b.educationLevel, occupation := b.occupation,
    experienceLevel := b.experienceLevel }

/-- The synchronous part between the two awaits, run once `User.findOne` has resolved
with `found`: the document to save, whether it is new, and the world after it. -/
def profilePrepare (lib : Lib) (w : World) (b : ProfileBody) (found : Option User) :
    User × Bool × World :=
  -- if (!user) user = new User({ email })
  let (user, isNew, w1) :=
    match found with
    | some u => (u, false, w)
    | none => (User.create w.nextId b.email, true, { w with nextId := w.nextId + 1 })
  let user := assignProfile user b
  -- if (!user.totpSecret) user.totpSecret = generateSecret()
  if falsy user.totpSecret then
    ({ user with totpSecret := some (lib.generateSecret w1.drawn) }, isNew,
      { w1 with drawn := w1.drawn + 1, log := w1.log ++ [Call.generateSecret] })
  else (user, isNew, w1)

/-- The rest of the handler, from `await user.save()` to the response. -/
def profileSave (lib : Lib) (w : World) (b : ProfileBody) (user : User) (isNew : Bool) :
    World × Response :=
  match save w.users user isNew with
  | none => (w, serverError)
  | some users =>
    let w1 := { w with users := users, log := w.log ++ [Call.saved user] }
    let otpauth := keyuri b.email "DigiBridge" user.totpSecret
    if lib.toDataURL otpauth then (w1, { status := 200, body := Body.profileSaved otpauth })
    else (w1, serverError)

/-- The handler of `POST /profile`. -/
def profile (lib : Lib) (w : World) (b : ProfileBody) : World × Response :=
  let found := findOne b.email w.users
  let (user, isNew, w1) := profilePrepare lib w b found
  profileSave lib w1 b user isNew

/-! ## POST /verify (routes/auth.js) -/

/-- The handler of `POST /verify`, run with signing key `JWT_SECRET`; `now` is the clock
(seconds) read by the TOTP check and `iat` the one read by `jwt.sign`. -/
def verify (lib : Lib) (JWT_SECRET : Option String) (now iat : Nat) (w : World)
    (b : VerifyBody) : World × Response :=
  match findOne b.email w.users with
  | none => (w, { status := 400, body := Body.error "User not found" })
  | some user =>
    let w1 := { w with log := w.log ++ [Call.totpVerify b.token user.totpSecret] }
    match lib.verify b.token user.totpSecret now with
    | none => (w1, serverError)
    | some false => (w1, { status := 400, body := Body.error "Invalid authentication code" })
    | some true =>
      let user := { user with twoFactorEnabled := true }
      match save w1.users user false with
      | none => (w1, serverError)
      | some users =>
        let w2 := { w1 with users := users,
                            log := w1.log ++ [Call.saved user,
                              Call.jwtSign user._id user.email JWT_SECRET] }
        match jwtSign user._id user.email JWT_SECRET oneHour iat with
        | none => (w2, serverError)
        | some t => (w2, { status := 200, body := Body.verified t })

/-! ## Two concurrent runs of POST /profile

A run of the handler touches shared state at three points: the `findOne` query, the
synchronous block (which draws an ObjectId and a secret), and the `save`.  Two runs
interleave at that granularity. -/

/-- Where one run of the `POST /profile` handler stands. -/
inductive Run where
  | start (b : ProfileBody)
  | loaded (b : ProfileBody) (found : Option User)
  | ready (b : ProfileBody) (user : User) (isNew : Bool)
  | done (r : Response)
deriving DecidableEq, Repr

/-- One step of a run. -/
def Run.step (lib : Lib) (w : World) : Run → World × Run
  | Run.start b => (w, Run.loaded b (findOne b.email w.users))
  | Run.loaded b found =>
    let (user, isNew, w1) := profilePrepare lib w b found
    (w1, Run.ready b user isNew)
  | Run.ready b user isNew =>
    let (w1, r) := profileSave lib w b user isNew
    (w1, Run.done r)
  | Run.done r => (w, Run.done r)

/-- The response of a finished run. -/
def Run.response : Run → Option Response
  | Run.done r => some r
  | _ => none

/-- Two runs sharing one world. -/
structure Pair where
  world : World
  first : Run
  second : Run

/-- Runs a schedule: `true` lets the first run take a step, `false` the second. -/
def Pair.run (lib : Lib) : List Bool → Pair → Pair
  | [], p => p
  | true :: s, p =>
    let (w, t) := p.first.step lib p.world
    Pair.run lib s { p with world := w, first := t }
  | false :: s, p =>
    let (w, t) := p.second.step lib p.world
    Pair.run lib s { p with world := w, second := t }

/-- Steps a run still has to take. -/
def Run.remaining : Run → Nat
  | Run.start _ => 3
  | Run.loaded _ _ => 2
  | Run.ready _ _ _ => 1
  | Run.done _ => 0

/-- Two documents agree on `_id`, `email` and `totpSecret`. -/
def SameIdentity (d d0 : User) : Prop :=
  d0._id = d._id ∧ d0.email = d.email ∧ d0.totpSecret = d.totpSecret

/-- The collection is the one of `w0` plus the single document `d`. -/
def Stored (w0 w : World) (d : User) : Prop := w.users = w0.users ++ [d]

/-- What holds of the shared world while runs for the email `e`, unseen in `w0`, are under
way: at most one document was added, it is for `e`, has a fresh `_id` and a set secret. -/
def WorldInv (w0 : World) (e : String) (w : World) : Prop :=
  w0.nextId ≤ w.nextId ∧
  (w.users = w0.users ∨
    ∃ d, Stored w0 w d ∧ d.email = e ∧ w0.nextId ≤ d._id ∧ falsy d.totpSecret = false)

/-- What holds of a run for the email `e` in the shared world `w`. -/
def RunInv (w0 : World) (e : String) (w : World) : Run → Prop
  | Run.start b => b.email = e
  | Run.loaded b found =>
    b.email = e ∧
    (found = none ∨ ∃ d0 d, found = some d0 ∧ Stored w0 w d ∧ SameIdentity d d0)
  | Run.ready b user isNew =>
    b.email = e ∧ user.email = e ∧ falsy user.totpSecret = false ∧
    (isNew = true → w0.nextId ≤ user._id) ∧
    (isNew = false → ∃ d, Stored w0 w d ∧ SameIdentity d user)
  | Run.done r =>
    ∃ d, Stored w0 w d ∧ ∀ uri, r.artifact = some uri → uri.secret = d.totpSecret

/-- How a step may change the world as seen by the other run. -/
def Extends (w0 w w1 : World) : Prop :=
  w.nextId ≤ w1.nextId ∧ ∀ d, Stored w0 w d → ∃ d1, Stored w0 w1 d1 ∧ SameIdentity d d1

/-- Stored ObjectIds were all handed out before: none reaches the counter. -/
def World.Fresh (w : World) : Prop := ∀ u ∈ w.users, u._id < w.nextId

/-- The documents stored for an email. -/
def recordsOf (email : String) (users : List User) : List User :=
  users.filter (fun u => decide (u.email = email))

/-! ## The backend as a whole -/

/-- A request to the two routes of `routes/auth.js`; a verification request comes with the
clock readings of its TOTP check and of `jwt.sign`. -/
inductive Request where
  | profile (b : ProfileBody)
  | verify (b : VerifyBody) (now iat : Nat)
deriving DecidableEq, Repr

/-- The world after a request. -/
def handle (lib : Lib) (JWT_SECRET : Option String) (w : World) : Request → World
  | Request.profile b => (profile lib w b).1
  | Request.verify b now iat => (verify lib JWT_SECRET now iat w b).1

/-- The world after a sequence of requests handled one after the other. -/
def serve (lib : Lib) (JWT_SECRET : Option String) : List Request → World → World
  | [], w => w
  | r :: rs, w => serve lib JWT_SECRET rs (handle lib JWT_SECRET w r)

/-- Stored `_id`s are pairwise distinct and below the ObjectId counter. -/
def World.WellFormed (w : World) : Prop := DistinctIds w.users ∧ w.Fresh

/-! ## Startup (server.js) -/

/-- The environment variables the backend reads. -/
structure ProcessEnv where
  PORT : Option String
  MONGO_URI : Option String
  JWT_SECRET : Option String
deriving DecidableEq, Repr

/-- How the run of `server.js` ends: the process exits with a code, or the server
listens. -/
inductive Startup where
  | exited (code : Nat)
  | listening
deriving DecidableEq, Repr

/-- The function `connectToMongoDB`: whether the connection is made.  It is not when
`MONGO_URI` is missing (the function calls `process.exit(1)`) or when `mongoose.connect`
rejects (`mongoUp = false`; `startServer` catches and calls `process.exit(1)`). -/
def connectToMongoDB (env : ProcessEnv) (mongoUp : Bool) : Bool :=
  if falsy env.MONGO_URI then false else mongoUp

/-- The run of `server.js`: the module is loaded, then `startServer()` is called.
* `authMiddleware` is whether `require("../middlewares/authMiddleware")` in
  `routes/dashboard.js` resolves.  `server.js` requires `./routes/dashboard` while it
  loads, before the `uncaughtException` handler is installed and before `startServer()`;
  when the module is missing the `require` throws and the process exits with code 1.
  The module is not among the sources, so on the sources as they are this is `false`.
* `portFree` is whether `checkPortAvailability` resolves, `mongoUp` whether
  `mongoose.connect` resolves, `listens` whether `app.listen` raises no error.
Every failure ends in exit code 1. -/
def startServer (env : ProcessEnv) (authMiddleware portFree mongoUp listens : Bool) : Startup :=
  if !authMiddleware then Startup.exited 1
  else if !portFree then Startup.exited 1
  else if !connectToMongoDB env mongoUp then Startup.exited 1
  else if !listens then Startup.exited 1
  else Startup.listening

/-- A `POST /verify` request sent to the process: it is handled, with the signing key
`process.env.JWT_SECRET`, only once the run of `server.js` has reached `listening`. -/
def serveVerify (lib : Lib) (env : ProcessEnv) (authMiddleware portFree mongoUp listens : Bool)
    (now iat : Nat) (w : World) (b : VerifyBody) : Option (World × Response) :=
  match startServer env authMiddleware portFree mongoUp listens with
  | Startup.listening => some (verify lib env.JWT_SECRET now iat w b)
  | Startup.exited _ => none

/-! ## The TOTP check behind `authenticator.verify` (otplib)

The handler calls `otplib.authenticator.verify({ token, secret: user.totpSecret })`; no
file of the repository assigns `authenticator.options`, so the check runs with the
options the library starts with: HMAC-SHA-1, 6 digits, a step of 30 seconds and a
window of 0.  The library is outside the repository; this section writes out RFC 4226
(HOTP), RFC 6238 (TOTP) and the windowed check of the library.  A key is the byte list
the base32 secret decodes to, a token is a string, times are in seconds. -/

/-- Two to the 32: words are reduced modulo this. -/
def word : Nat := 4294967296

/-- Left rotation of a 32-bit word. -/
def rotl (n x : Nat) : Nat := ((x <<< n) ||| (x >>> (32 - n))) % word

/-- The `n` low bytes of `x`, most significant first. -/
def toBytesBE : Nat → Nat → List Nat
  | 0, _ => []
  | n + 1, x => (x >>> (8 * n)) % 256 :: toBytesBE n x

/-- The number a big-endian byte list denotes. -/
def ofBytesBE (bs : List Nat) : Nat := bs.foldl (fun acc b => acc * 256 + b) 0

/-- The first `n` 32-bit words of a byte list. -/
def toWords : Nat → List Nat → List Nat
  | 0, _ => []
  | n + 1, bs => ofBytesBE (bs.take 4) :: toWords n (bs.drop 4)

/-- SHA-1 padding: a 1 bit, zeros, and the bit length on 8 bytes, up to a multiple of 64
bytes. -/
def sha1Pad (msg : List Nat) : List Nat :=
  msg ++ [128] ++ List.replicate ((119 - msg.length % 64) % 64) 0 ++
    toBytesBE 8 (8 * msg.length)

/-- Extends the message schedule by `n` words; the list is kept latest word first. -/
def sha1Extend : Nat → List Nat → List Nat
  | 0, ws => ws
  | n + 1, ws =>
    match ws with
    | _ :: _ :: w3 :: _ :: _ :: _ :: _ :: w8 :: _ :: _ :: _ :: _ :: _ :: w14 :: _ :: w16 :: _ =>
      sha1Extend n (rotl 1 (w3 ^^^ w8 ^^^ w14 ^^^ w16) :: ws)
    | _ => ws

/-- The five working variables of SHA-1. -/
structure Sha1State where
  a : Nat
  b : Nat
  c : Nat
  d : Nat
  e : Nat
deriving DecidableEq, Repr

/-- The round function and round constant of round `t`. -/
def sha1Round (t b c d : Nat) : Nat × Nat :=
  if t < 20 then ((b &&& c) ||| ((word - 1 - b) &&& d), 0x5A827999)
  else if t < 40 then (b ^^^ c ^^^ d, 0x6ED9EBA1)
  else if t < 60 then ((b &&& c) ||| (b &&& d) ||| (c &&& d), 0x8F1BBCDC)
  else (b ^^^ c ^^^ d, 0xCA62C1D6)

/-- The rounds of SHA-1 over a message schedule, from round `t` on. -/
def sha1Rounds : Nat → List Nat → Sha1State → Sha1State
  | _, [], s => s
  | t, w :: ws, s =>
    sha1Rounds (t + 1) ws
      { a := (rotl 5 s.a + (sha1Round t s.b s.c s.d).1 + s.e + (sha1Round t s.b s.c s.d).2 + w)
          % word,
        b := s.a, c := rotl 30 s.b, d := s.c, e := s.d }

/-- The compression of one 64-byte block. -/
def sha1Compress (h : Sha1State) (block : List Nat) : Sha1State :=
  let s := sha1Rounds 0 (sha1Extend 64 (toWords 16 block).reverse).reverse h
  { a := (h.a + s.a) % word, b := (h.b + s.b) % word, c := (h.c + s.c) % word,
    d := (h.d + s.d) % word, e := (h.e + s.e) % word }

/-- The compression of the first `n` blocks of a byte list. -/
def sha1Blocks : Nat → List Nat → Sha1State → Sha1State
  | 0, _, h => h
  | n + 1, bs, h => sha1Blocks n (bs.drop 64) (sha1Compress h (bs.take 64))

/-- SHA-1 of a byte list, as 20 bytes. -/
def sha1 (msg : List Nat) : List Nat :=
  let h := sha1Blocks ((sha1Pad msg).length / 64) (sha1Pad msg)
    { a := 0x67452301, b := 0xEFCDAB89, c := 0x98BADCFE, d := 0x10325476, e := 0xC3D2E1F0 }
  toBytesBE 4 h.a ++ toBytesBE 4 h.b ++ toBytesBE 4 h.c ++ toBytesBE 4 h.d ++ toBytesBE 4 h.e

/-- HMAC-SHA-1 (RFC 2104) of a message under a key. -/
def hmacSha1 (key msg : List Nat) : List Nat :=
  let k := if key.length > 64 then sha1 key else key
  let k := k ++ List.replicate (64 - k.length) 0
  sha1 (k.map (fun b => b ^^^ 0x5c) ++ sha1 (k.map (fun b => b ^^^ 0x36) ++ msg))

/-- The decimal digits of `n` on `width` places, zeros in front: for `n` below
`10 ^ width` this is `String(n).padStart(width, "0")`. -/
def decimalDigits : Nat → Nat → List Char
  | 0, _ => []
  | width + 1, n => decimalDigits width (n / 10) ++ [Char.ofNat (48 + n % 10)]

/-- The HOTP token of RFC 4226: dynamic truncation of the HMAC of the 8-byte counter,
reduced to `digits` decimal digits and written on `digits` places. -/
def hotpToken (key : List Nat) (counter digits : Nat) : String :=
  let d := hmacSha1 key (toBytesBE 8 counter)
  let o := d.getD 19 0 % 16
  String.mk (decimalDigits digits
    ((((d.getD o 0 % 128) <<< 24) ||| (d.getD (o + 1) 0 <<< 16) ||| (d.getD (o + 2) 0 <<< 8)
      ||| d.getD (o + 3) 0) % 10 ^ digits))

/-- The options of the TOTP check. -/
structure TotpOptions where
  step : Nat
  window : Nat
  digits : Nat
deriving DecidableEq, Repr

/-- The options of `otplib.authenticator` when the application sets none. -/
def authenticatorDefaults : TotpOptions := { step := 30, window := 0, digits := 6 }

/-- The token of the time step that contains `epoch`. -/
def totpToken (key : List Nat) (epoch : Nat) (o : TotpOptions) : String :=
  hotpToken key (epoch / o.step) o.digits

/-- The test `isTokenValid` of the library: a non-empty string of decimal digits. -/
def isTokenValid (token : String) : Bool :=
  !token.data.isEmpty && token.data.all Char.isDigit

/-- The check of a token against the step that contains `epoch`: the token must be
well formed and be, as a string, the token of that step. -/
def totpCheck (token : String) (key : List Nat) (epoch : Nat) (o : TotpOptions) : Bool :=
  isTokenValid token && decide (token = totpToken key epoch o)

/-- The windowed check: the step of `epoch`, then for `i` from 1 to `window` the steps
`i` before and `i` after it (steps before time 0 do not exist). -/
def totpCheckWithWindow (token : String) (key : List Nat) (epoch : Nat) (o : TotpOptions) :
    Bool :=
  totpCheck token key epoch o ||
    (List.range o.window).any (fun i =>
      (decide ((i + 1) * o.step ≤ epoch) && totpCheck token key (epoch - (i + 1) * o.step) o) ||
        totpCheck token key (epoch + (i + 1) * o.step) o)

/-- The check of a token against a decoded key at time `now`, with the options of the
library. -/
def authenticatorCheck (token : String) (key : List Nat) (now : Nat) : Bool :=
  totpCheckWithWindow token key now authenticatorDefaults

/-- The 6-digit code derived for time `t` at a 30-second step. -/
def deriveCode (key : List Nat) (t : Nat) : String := totpToken key t authenticatorDefaults

/-- The call `authenticator.verify({ token, secret })` at time `now`; `decode` is the
base32 key decoder of the library (`none`: it throws).  The secret is decoded first: an
undefined secret makes the decoder throw, whatever the token is.  An undefined token is
not well formed and is rejected. -/
def authenticatorVerify (decode : String → Option (List Nat)) (token secret : Option String)
    (now : Nat) : Option Bool :=
  match secret with
  | none => none
  | some s =>
    match decode s with
    | none => none
    | some key =>
      match token with
      | none => some false
      | some tok => some (authenticatorCheck tok key now)

/-- The libraries with `otplib` written out: only the key decoder, the random source of
`generateSecret` and the QR encoder stay parameters. -/
def otplib (decode : String → Option (List Nat)) (generateSecret : Nat → String)
    (toDataURL : KeyUri → Bool) : Lib :=
  { generateSecret := generateSecret, verify := authenticatorVerify decode,
    toDataURL := toDataURL }

/-- The 5-bit value of a character of the base32 alphabet of RFC 4648, in either case. -/
def base32Value (c : Char) : Option Nat :=
  if 65 ≤ c.toNat ∧ c.toNat ≤ 90 then some (c.toNat - 65)
  else if 97 ≤ c.toNat ∧ c.toNat ≤ 122 then some (c.toNat - 97)
  else if 50 ≤ c.toNat ∧ c.toNat ≤ 55 then some (c.toNat - 24)
  else none

/-- The 5-bit values of a list of base32 characters. -/
def base32Values : List Char → Option (List Nat)
  | [] => some []
  | c :: cs =>
    match base32Value c, base32Values cs with
    | some d, some ds => some (d :: ds)
    | _, _ => none

/-- Base32 decoding (RFC 4648) of a secret as `generateSecret` returns them: the
characters up to the first `=` are read 5 bits each and the whole bytes are kept.  A
character outside the alphabet gives `none`. -/
def base32Decode (s : String) : Option (List Nat) :=
  (base32Values (s.data.takeWhile (fun c => c != '='))).map (fun ds =>
    toBytesBE (5 * ds.length / 8)
      (ds.foldl (fun acc d => acc * 32 + d) 0 >>> (5 * ds.length % 8)))

/-- The key of the RFC 4226 test vectors, the ASCII bytes of "12345678901234567890". -/
def rfcKey : List Nat :=
  [49, 50, 51, 52, 53, 54, 55, 56, 57, 48, 49, 50, 51, 52, 53, 54, 55, 56, 57, 48]

/-! ## Sample data -/

/-- A secret generator used in the examples: two distinct non-empty base32 strings. -/
def sampleSecret (n : Nat) : String :=
  if n = 0 then "JBSWY3DPEHPK3PXP" else "KRSXG5CTMVRXEZLU"

/-- A library instance used in the examples: `otplib` with base32 secrets, a generator
that returns `sampleSecret`, and a QR encoder that never fails. -/
def sampleLib : Lib := otplib base32Decode sampleSecret (fun _ => true)

/-- A stored, enrolled user. -/
def alice : User :=
  { _id := 0, email := "alice@example.com", phone := some "5550100100",
    firstName := some "Alice", lastName := some "A", village := some "Rampur",
    ageRange := some "25-34", educationLevel := some "secondary",
    occupation := some "farmer", experienceLevel := some "beginner",
    totpSecret := some "JBSWY3DPEHPK3PXP", twoFactorEnabled := false }

/-- A world holding only `alice`. -/
def aliceWorld : World := { users := [alice], nextId := 1, drawn := 1, log := [] }

/-- The world before any request. -/
def emptyWorld : World := { users := [], nextId := 0, drawn := 0, log := [] }

/-- A profile request for `alice` that gives only a first name. -/
def renameAlice : ProfileBody :=
  { email := "alice@example.com", firstName := some "Alicia", lastName := none, phone := none,
    village := none, ageRange := none, educationLevel := none, occupation := none,
    experienceLevel := none, rest := [("twoFactorEnabled", "true")] }

/-- A stored record whose `totpSecret` is unset. -/
def bob : User :=
  { User.create 7 "bob@example.com" with firstName := some "Bob" }

/-- A world holding only `bob`. -/
def bobWorld : World := { users := [bob], nextId := 8, drawn := 0, log := [] }

/-- A verification request. -/
def verifyBody (email token : String) : VerifyBody :=
  { email := email, token := some token, rest := [] }

/-- An environment with a database URI and no signing key. -/
def envWithoutKey : ProcessEnv :=
  { PORT := none, MONGO_URI := some "mongodb://localhost:27017/digibridge", JWT_SECRET := none }

/-- A first-time profile request. -/
def newProfile (email firstName : String) : ProfileBody :=
  { email := email, firstName := some firstName, lastName := none, phone := some "5550100200",
    village := none, ageRange := none, educationLevel := none, occupation := none,
    experienceLevel := none, rest := [] }

/-- Two runs about to start on a world. -/
def Pair.init (w : World) (b1 b2 : ProfileBody) : Pair :=
  { world := w, first := Run.start b1, second := Run.start b2 }

/-- The secret stored for an email, if any. -/
def storedSecret (email : String) (users : List User) : Option String :=
  (findOne email users).bind User.totpSecret

/-- The secret carried by the provisioning URI of a finished run, if it rendered one. -/
def Run.artifactSecret (t : Run) : Option (Option String) :=
  (t.response.bind Response.artifact).map KeyUri.secret

/-- A stored user enrolled with the key of the RFC 4226 test vectors. -/
def erin : User :=
  { User.create 3 "erin@example.com" with
    totpSecret := some "GEZDGNBVGY3TQOJQGEZDGNBVGY3TQOJQ" }

/-- A world holding only `erin`. -/
def erinWorld : World := { users := [erin], nextId := 4, drawn := 1, log := [] }

/-- The key the secret of `alice` decodes to. -/
def aliceKey : List Nat := [72, 101, 108, 108, 111, 33, 222, 173, 190, 239]

/-! ## Lemmas on the collection -/

theorem findOne_email {e : String} {us : List User} {u : User}
    (h : findOne e us = some u) : u.email = e := by
  induction us with
  | nil => simp [findOne] at h
  | cons v vs ih =>
    unfold findOne at h
    split at h
    · cases h; assumption
    · exact ih h

theorem findOne_mem {e : String} {us : List User} {u : User}
    (h : findOne e us = some u) : u ∈ us := by
  induction us with
  | nil => simp [findOne] at h
  | cons v vs ih =>
    unfold findOne at h
    split at h
    · cases h; exact List.mem_cons_self _ _
    · exact List.mem_cons_of_mem _ (ih h)

theorem findOne_updateOne {e : String} {us : List User} {u d : User}
    (h : findOne e us = some u) (hid : d._id = u._id) (he : d.email = e) :
    findOne e (updateOne d us) = some d := by
  induction us with
  | nil => simp [findOne] at h
  | cons v vs ih =>
    unfold updateOne
    by_cases hv : v._id = d._id
    · simp [hv, findOne, he]
    · have hne : v.email ≠ e := by
        intro hve
        simp [findOne, hve] at h
        exact hv (by rw [h, hid])
      simp only [findOne, hne, if_false] at h
      simp [hv, findOne, hne, ih h]

theorem findOne_append {e : String} {us : List User} (d : User)
    (h : findOne e us = none) :
    findOne e (us ++ [d]) = if d.email = e then some d else none := by
  induction us with
  | nil => simp [findOne]
  | cons v vs ih =>
    unfold findOne at h
    split at h
    · cases h
    · rename_i hne
      simp [findOne, hne, ih h]

theorem falsy_some {s : String} (h : s ≠ "") : falsy (some s) = false := by
  simp [falsy, h]

theorem profilePrepare_some_set (lib : Lib) (w : World) (b : ProfileBody) (u : User)
    (h : falsy u.totpSecret = false) :
    profilePrepare lib w b (some u) = (assignProfile u b, false, w) := by
  simp [profilePrepare, assignProfile, h]

theorem profilePrepare_some_unset (lib : Lib) (w : World) (b : ProfileBody) (u : User)
    (h : falsy u.totpSecret = true) :
    profilePrepare lib w b (some u) =
      ({ assignProfile u b with totpSecret := some (lib.generateSecret w.drawn) }, false,
        { w with drawn := w.drawn + 1, log := w.log ++ [Call.generateSecret] }) := by
  simp [profilePrepare, assignProfile, h]

theorem profilePrepare_none (lib : Lib) (w : World) (b : ProfileBody) :
    profilePrepare lib w b none =
      ({ assignProfile (User.create w.nextId b.email) b with
          totpSecret := some (lib.generateSecret w.drawn) }, true,
        { w with nextId := w.nextId + 1, drawn := w.drawn + 1,
                 log := w.log ++ [Call.generateSecret] }) := by
  simp [profilePrepare, assignProfile, User.create, falsy]

theorem profileSave_users (lib : Lib) (w : World) (b : ProfileBody) (d : User) (isNew : Bool) :
    (profileSave lib w b d isNew).1.users = (save w.users d isNew).getD w.users := by
  unfold profileSave
  cases save w.users d isNew with
  | none => rfl
  | some us => dsimp only; split <;> rfl

theorem profileSave_drawn (lib : Lib) (w : World) (b : ProfileBody) (d : User) (isNew : Bool) :
    (profileSave lib w b d isNew).1.drawn = w.drawn ∧
      (profileSave lib w b d isNew).1.nextId = w.nextId ∧
      (profileSave lib w b d isNew).1.log.count Call.generateSecret =
        w.log.count Call.generateSecret := by
  unfold profileSave
  cases save w.users d isNew with
  | none => simp
  | some us => dsimp only; split <;> simp [List.count_append]

/-! ## POST /profile: lemmas -/

/-- The document `POST /profile` inserts for an email that has no record. -/
theorem profile_users_of_none (lib : Lib) (w : World) (b : ProfileBody)
    (h : findOne b.email w.users = none) :
    (profile lib w b).1.users =
      if b.email = "" then w.users
      else w.users ++ [{ assignProfile (User.create w.nextId b.email) b with
                          totpSecret := some (lib.generateSecret w.drawn) }] := by
  unfold profile
  simp only [h, profilePrepare_none, profileSave_users]
  by_cases he : b.email = ""
  · simp [save, assignProfile, User.create, he]
  · simp [save, assignProfile, User.create, he, h]

/-- On a record whose secret is set, `POST /profile` draws no secret and stores the
loaded document with the eight profile paths assigned. -/
theorem profile_of_set (lib : Lib) (w : World) (b : ProfileBody) (u : User)
    (h : findOne b.email w.users = some u) (hs : falsy u.totpSecret = false) :
    (profile lib w b).1.drawn = w.drawn ∧
    (profile lib w b).1.nextId = w.nextId ∧
    (profile lib w b).1.log.count Call.generateSecret = w.log.count Call.generateSecret ∧
    (profile lib w b).1.users =
      if b.email = "" then w.users else updateOne (assignProfile u b) w.users := by
  unfold profile
  simp only [h, profilePrepare_some_set lib w b u hs, profileSave_users, profileSave_drawn,
    true_and]
  have he : (assignProfile u b).email = b.email := by
    show u.email = b.email
    exact findOne_email h
  by_cases hb : b.email = ""
  · simp [save, he, hb]
  · simp [save, he, hb]

theorem sampleSecret_ne (n : Nat) : sampleLib.generateSecret n ≠ "" := by
  show sampleSecret n ≠ ""
  unfold sampleSecret
  split <;> decide

/-! ## C1: re-saving a profile never rotates the secret -/

/-- C1: for every library behaviour, world and profile request, (1) if the record stored
for the email has a non-empty `totpSecret`, `POST /profile` draws no secret (the draw counter
and the number of logged `generateSecret` calls are unchanged) and the `totpSecret` stored
for that email afterwards is the one stored before; (2) if the email has no record and
`generateSecret` only returns non-empty strings, a second `POST /profile` for the same
email leaves the stored `totpSecret` as the first call left it, and for a non-empty email
that secret is the one drawn by the first call. -/
theorem saveProfile_keeps_secret (lib : Lib) (w : World) (b b2 : ProfileBody) :
    (∀ u s, findOne b.email w.users = some u → u.totpSecret = some s → s ≠ "" →
      (profile lib w b).1.drawn = w.drawn ∧
      (profile lib w b).1.log.count Call.generateSecret = w.log.count Call.generateSecret ∧
      (findOne b.email (profile lib w b).1.users).bind User.totpSecret = some s) ∧
    (b2.email = b.email → findOne b.email w.users = none →
      (∀ n, lib.generateSecret n ≠ "") →
      (findOne b.email (profile lib (profile lib w b).1 b2).1.users).bind User.totpSecret =
        (findOne b.email (profile lib w b).1.users).bind User.totpSecret ∧
      (b.email ≠ "" →
        (findOne b.email (profile lib w b).1.users).bind User.totpSecret =
          some (lib.generateSecret w.drawn) ∧
        (profile lib (profile lib w b).1 b2).1.drawn = (profile lib w b).1.drawn)) := by
  have keep : ∀ (w : World) (b : ProfileBody) (u : User) (s : String),
      findOne b.email w.users = some u → u.totpSecret = some s → s ≠ "" →
      (profile lib w b).1.drawn = w.drawn ∧
      (profile lib w b).1.log.count Call.generateSecret = w.log.count Call.generateSecret ∧
      (findOne b.email (profile lib w b).1.users).bind User.totpSecret = some s := by
    intro w b u s h hu hs
    have hf : falsy u.totpSecret = false := by rw [hu]; exact falsy_some hs
    obtain ⟨h1, -, h3, h4⟩ := profile_of_set lib w b u h hf
    refine ⟨h1, h3, ?_⟩
    rw [h4]
    by_cases hb : b.email = ""
    · simp [hb] at h ⊢
      simp [h, hu]
    · simp only [hb, if_false]
      have he : (assignProfile u b).email = b.email := by
        show u.email = b.email
        exact findOne_email h
      rw [findOne_updateOne (d := assignProfile u b) h rfl he]
      simpa [assignProfile] using hu
  refine ⟨keep w b, ?_⟩
  intro he hnone hgen
  have hu := profile_users_of_none lib w b hnone
  by_cases hb : b.email = ""
  · -- the required validator rejects both saves: nothing is stored for the email
    simp only [hb, if_true] at hu
    have hnone1 : findOne b2.email (profile lib w b).1.users = none := by
      rw [he, hu]; exact hnone
    have hu2 := profile_users_of_none lib (profile lib w b).1 b2 hnone1
    simp only [he, hb, if_true] at hu2
    exact ⟨by rw [hu2], fun h => absurd hb h⟩
  · simp only [hb, if_false] at hu
    have hfound : findOne b2.email (profile lib w b).1.users =
        some { assignProfile (User.create w.nextId b.email) b with
                totpSecret := some (lib.generateSecret w.drawn) } := by
      rw [he, hu, findOne_append _ hnone]
      simp [assignProfile, User.create]
    have hk := keep (profile lib w b).1 b2 _ (lib.generateSecret w.drawn) hfound rfl
      (hgen w.drawn)
    rw [he] at hk hfound
    refine ⟨?_, fun _ => ⟨?_, hk.1⟩⟩
    · rw [hk.2.2, hfound]; rfl
    · rw [hfound]; rfl

theorem saveProfile_keeps_secret_witness :
    ((profile sampleLib aliceWorld renameAlice).1.drawn = aliceWorld.drawn ∧
      (profile sampleLib aliceWorld renameAlice).1.log.count Call.generateSecret =
        aliceWorld.log.count Call.generateSecret ∧
      (findOne renameAlice.email (profile sampleLib aliceWorld renameAlice).1.users).bind
        User.totpSecret = some "JBSWY3DPEHPK3PXP") ∧
    ((findOne renameAlice.email
        (profile sampleLib (profile sampleLib emptyWorld renameAlice).1 renameAlice).1.users).bind
        User.totpSecret =
      (findOne renameAlice.email (profile sampleLib emptyWorld renameAlice).1.users).bind
        User.totpSecret ∧
      (findOne renameAlice.email (profile sampleLib emptyWorld renameAlice).1.users).bind
        User.totpSecret = some (sampleLib.generateSecret emptyWorld.drawn) ∧
      (profile sampleLib (profile sampleLib emptyWorld renameAlice).1 renameAlice).1.drawn =
        (profile sampleLib emptyWorld renameAlice).1.drawn) :=
  have h := (saveProfile_keeps_secret sampleLib emptyWorld renameAlice renameAlice).2 rfl
    (by decide) sampleSecret_ne
  ⟨(saveProfile_keeps_secret sampleLib aliceWorld renameAlice renameAlice).1 alice
      "JBSWY3DPEHPK3PXP" (by decide) (by decide) (by decide),
    h.1, h.2 (by decide)⟩

/-! ## POST /verify: lemmas -/

theorem verify_of_none (lib : Lib) (key : Option String) (now iat : Nat) (w : World)
    (b : VerifyBody) (h : findOne b.email w.users = none) :
    verify lib key now iat w b = (w, { status := 400, body := Body.error "User not found" }) := by
  simp [verify, h]

theorem verify_of_throw (lib : Lib) (key : Option String) (now iat : Nat) (w : World)
    (b : VerifyBody) (u : User) (h : findOne b.email w.users = some u)
    (hc : lib.verify b.token u.totpSecret now = none) :
    verify lib key now iat w b =
      ({ w with log := w.log ++ [Call.totpVerify b.token u.totpSecret] }, serverError) := by
  simp [verify, h, hc]

theorem verify_of_reject (lib : Lib) (key : Option String) (now iat : Nat) (w : World)
    (b : VerifyBody) (u : User) (h : findOne b.email w.users = some u)
    (hc : lib.verify b.token u.totpSecret now = some false) :
    verify lib key now iat w b =
      ({ w with log := w.log ++ [Call.totpVerify b.token u.totpSecret] },
        { status := 400, body := Body.error "Invalid authentication code" }) := by
  simp [verify, h, hc]

theorem verify_of_accept (lib : Lib) (key : Option String) (now iat : Nat) (w : World)
    (b : VerifyBody) (u : User) (h : findOne b.email w.users = some u)
    (hc : lib.verify b.token u.totpSecret now = some true) (he : b.email ≠ "") :
    verify lib key now iat w b =
      ({ w with users := updateOne { u with twoFactorEnabled := true } w.users,
                log := w.log ++ [Call.totpVerify b.token u.totpSecret] ++
                  [Call.saved { u with twoFactorEnabled := true },
                    Call.jwtSign u._id u.email key] },
        match jwtSign u._id u.email key oneHour iat with
        | none => serverError
        | some t => { status := 200, body := Body.verified t }) := by
  have hu : u.email ≠ "" := by rw [findOne_email h]; exact he
  simp only [verify, h, hc, save, hu, if_false]
  cases jwtSign u._id u.email key oneHour iat <;> simp

theorem verify_of_accept_empty (lib : Lib) (key : Option String) (now iat : Nat) (w : World)
    (b : VerifyBody) (u : User) (h : findOne b.email w.users = some u)
    (hc : lib.verify b.token u.totpSecret now = some true) (he : b.email = "") :
    verify lib key now iat w b =
      ({ w with log := w.log ++ [Call.totpVerify b.token u.totpSecret] }, serverError) := by
  have hu : u.email = "" := by rw [findOne_email h]; exact he
  simp [verify, h, hc, save, hu]

/-! ## C2: a valid code enables two-factor and, given a key, yields a one-hour credential -/

/-- C2, as stated, fails: for the enrolled record of `alice` and her current code, which
the TOTP check accepts, the handler run without a signing key (`JWT_SECRET` absent, or
empty) answers 500 "Server error" and the response carries no credential. -/
theorem verifyCode_without_key :
    findOne "alice@example.com" aliceWorld.users = some alice ∧
    alice.totpSecret = some "JBSWY3DPEHPK3PXP" ∧
    sampleLib.verify (some "475209") alice.totpSecret 1000 = some true ∧
    (verify sampleLib none 1000 1001 aliceWorld
        (verifyBody "alice@example.com" "475209")).2 = serverError ∧
    (verify sampleLib none 1000 1001 aliceWorld
        (verifyBody "alice@example.com" "475209")).2.credential = none ∧
    (verify sampleLib (some "") 1000 1001 aliceWorld
        (verifyBody "alice@example.com" "475209")).2 = serverError := by
  decide!

/-- C2 (amended): for every stored record (found under a non-empty email) and every
submitted code that the TOTP check accepts, `POST /verify` stores that record with
`twoFactorEnabled = true` and every other path unchanged (the rest of the collection is
untouched), and, when the signing key is a non-empty string, answers 200 with a credential
signed with that key over the record id and email, whose expiry is exactly 3600 seconds
after its issue time. -/
theorem verifyCode_success (lib : Lib) (key : Option String) (now iat : Nat) (w : World)
    (b : VerifyBody) (u : User)
    (h : findOne b.email w.users = some u)
    (hc : lib.verify b.token u.totpSecret now = some true)
    (he : b.email ≠ "") :
    (verify lib key now iat w b).1.users =
        updateOne { u with twoFactorEnabled := true } w.users ∧
    findOne b.email (verify lib key now iat w b).1.users =
        some { u with twoFactorEnabled := true } ∧
    ∀ k, key = some k → k ≠ "" →
      ∃ t, (verify lib key now iat w b).2 = { status := 200, body := Body.verified t } ∧
        (verify lib key now iat w b).2.credential = some t ∧
        t.id = u._id ∧ t.email = u.email ∧ t.email = b.email ∧ t.signedWith = k ∧
        t.iat = iat ∧ t.exp = t.iat + 3600 := by
  have hu : u.email = b.email := findOne_email h
  rw [verify_of_accept lib key now iat w b u h hc he]
  refine ⟨rfl, ?_, ?_⟩
  · exact findOne_updateOne (d := { u with twoFactorEnabled := true }) h rfl hu
  · intro k hk hk0
    have hsign : jwtSign u._id u.email key oneHour iat =
        some { id := u._id, email := u.email, iat := iat, exp := iat + 3600, signedWith := k } := by
      simp [jwtSign, hk, hk0, oneHour]
    exact ⟨_, by rw [hsign], by rw [hsign]; rfl, rfl, rfl, hu, rfl, rfl, rfl⟩

theorem verifyCode_success_witness :
    (verify sampleLib (some "k3y") 1000 1001 aliceWorld
        (verifyBody "alice@example.com" "475209")).1.users =
      updateOne { alice with twoFactorEnabled := true } aliceWorld.users ∧
    findOne "alice@example.com" (verify sampleLib (some "k3y") 1000 1001 aliceWorld
        (verifyBody "alice@example.com" "475209")).1.users =
      some { alice with twoFactorEnabled := true } ∧
    ∃ t, (verify sampleLib (some "k3y") 1000 1001 aliceWorld
        (verifyBody "alice@example.com" "475209")).2 =
        { status := 200, body := Body.verified t } ∧
      (verify sampleLib (some "k3y") 1000 1001 aliceWorld
        (verifyBody "alice@example.com" "475209")).2.credential = some t ∧
      t.id = alice._id ∧ t.email = alice.email ∧ t.email = "alice@example.com" ∧
      t.signedWith = "k3y" ∧ t.iat = 1001 ∧ t.exp = t.iat + 3600 :=
  have h := verifyCode_success sampleLib (some "k3y") 1000 1001 aliceWorld
    (verifyBody "alice@example.com" "475209") alice (by decide) (by decide!) (by decide)
  ⟨h.1, h.2.1, h.2.2 "k3y" rfl (by decide)⟩

/-! ## C3: a wrong code -/

/-- C3: for every world, every email that has a record and every submitted code that the
TOTP check rejects, `POST /verify` answers 400 "Invalid authentication code", the response
carries no credential, the only call logged is the TOTP check (no save, no `jwt.sign`), and
the collection is unchanged. -/
theorem verifyCode_invalid (lib : Lib) (key : Option String) (now iat : Nat) (w : World)
    (b : VerifyBody) (u : User)
    (h : findOne b.email w.users = some u)
    (hc : lib.verify b.token u.totpSecret now = some false) :
    (verify lib key now iat w b).2 =
        { status := 400, body := Body.error "Invalid authentication code" } ∧
    (verify lib key now iat w b).2.credential = none ∧
    (verify lib key now iat w b).1.log = w.log ++ [Call.totpVerify b.token u.totpSecret] ∧
    (∀ id email k, Call.jwtSign id email k ∈ (verify lib key now iat w b).1.log →
      Call.jwtSign id email k ∈ w.log) ∧
    (verify lib key now iat w b).1.users = w.users := by
  rw [verify_of_reject lib key now iat w b u h hc]
  refine ⟨rfl, rfl, rfl, ?_, rfl⟩
  intro id email k hmem
  simpa using hmem

theorem verifyCode_invalid_witness :
    (verify sampleLib (some "k3y") 1000 1001 aliceWorld
        (verifyBody "alice@example.com" "000000")).2 =
        { status := 400, body := Body.error "Invalid authentication code" } ∧
    (verify sampleLib (some "k3y") 1000 1001 aliceWorld
        (verifyBody "alice@example.com" "000000")).2.credential = none ∧
    (verify sampleLib (some "k3y") 1000 1001 aliceWorld
        (verifyBody "alice@example.com" "000000")).1.log =
      aliceWorld.log ++ [Call.totpVerify (verifyBody "alice@example.com" "000000").token
        alice.totpSecret] ∧
    (∀ id email k, Call.jwtSign id email k ∈ (verify sampleLib (some "k3y") 1000 1001 aliceWorld
        (verifyBody "alice@example.com" "000000")).1.log →
      Call.jwtSign id email k ∈ aliceWorld.log) ∧
    (verify sampleLib (some "k3y") 1000 1001 aliceWorld
        (verifyBody "alice@example.com" "000000")).1.users = aliceWorld.users :=
  verifyCode_invalid sampleLib (some "k3y") 1000 1001 aliceWorld
    (verifyBody "alice@example.com" "000000") alice (by decide) (by decide!)

/-! ## C7: who is turned away, and when -/

/-- C7, as stated, fails: a stored record whose `totpSecret` is unset is not answered with
the not-found error, and not before the TOTP check: `authenticator.verify` is called with
the undefined secret, it throws, and the answer is 500 "Server error". -/
theorem verifyCode_unset_secret_checked :
    findOne "bob@example.com" bobWorld.users = some bob ∧ bob.totpSecret = none ∧
    (verify sampleLib (some "k3y") 1000 1001 bobWorld
        (verifyBody "bob@example.com" "000000")).1.log =
      [Call.totpVerify (some "000000") none] ∧
    (verify sampleLib (some "k3y") 1000 1001 bobWorld
        (verifyBody "bob@example.com" "000000")).2 =
      { status := 500, body := Body.error "Server error" } ∧
    (verify sampleLib (some "k3y") 1000 1001 bobWorld
        (verifyBody "bob@example.com" "000000")).2 ≠
      { status := 400, body := Body.error "User not found" } := by
  decide!

/-- C7 (amended): if no record exists for the email, `POST /verify` answers 400
"User not found" and leaves the whole world unchanged (no TOTP check is logged, the
collection is the same) and the response carries no credential.  If a record exists but
its `totpSecret` is unset, the handler does not fail with that error nor before the TOTP
check: the check is called with the undefined secret, where the library throws, and the
handler answers 500 "Server error"; it issues no credential and leaves the collection
unchanged. -/
theorem verifyCode_not_found (lib : Lib) (key : Option String) (now iat : Nat) (w : World)
    (b : VerifyBody) (hthrow : ∀ token t, lib.verify token none t = none) :
    (findOne b.email w.users = none →
      verify lib key now iat w b =
        (w, { status := 400, body := Body.error "User not found" }) ∧
      (verify lib key now iat w b).2.credential = none) ∧
    (∀ u, findOne b.email w.users = some u → u.totpSecret = none →
      verify lib key now iat w b =
        ({ w with log := w.log ++ [Call.totpVerify b.token none] },
          { status := 500, body := Body.error "Server error" }) ∧
      (verify lib key now iat w b).2 ≠ { status := 400, body := Body.error "User not found" } ∧
      (verify lib key now iat w b).2.credential = none ∧
      (verify lib key now iat w b).1.users = w.users) := by
  constructor
  · intro h
    rw [verify_of_none lib key now iat w b h]
    exact ⟨rfl, rfl⟩
  · intro u h hu
    have hc : lib.verify b.token u.totpSecret now = none := by rw [hu]; exact hthrow _ _
    rw [verify_of_throw lib key now iat w b u h hc, hu]
    exact ⟨rfl, by simp [serverError], rfl, rfl⟩

theorem verifyCode_not_found_witness :
    (verify sampleLib (some "k3y") 1000 1001 aliceWorld
        (verifyBody "carol@example.com" "475209") =
      (aliceWorld, { status := 400, body := Body.error "User not found" }) ∧
      (verify sampleLib (some "k3y") 1000 1001 aliceWorld
        (verifyBody "carol@example.com" "475209")).2.credential = none) ∧
    (verify sampleLib (some "k3y") 1000 1001 bobWorld (verifyBody "bob@example.com" "475209") =
        ({ bobWorld with
            log := bobWorld.log ++
              [Call.totpVerify (verifyBody "bob@example.com" "475209").token none] },
          { status := 500, body := Body.error "Server error" }) ∧
      (verify sampleLib (some "k3y") 1000 1001 bobWorld
          (verifyBody "bob@example.com" "475209")).2 ≠
        { status := 400, body := Body.error "User not found" } ∧
      (verify sampleLib (some "k3y") 1000 1001 bobWorld
          (verifyBody "bob@example.com" "475209")).2.credential = none ∧
      (verify sampleLib (some "k3y") 1000 1001 bobWorld
          (verifyBody "bob@example.com" "475209")).1.users = bobWorld.users) :=
  ⟨(verifyCode_not_found sampleLib (some "k3y") 1000 1001 aliceWorld
      (verifyBody "carol@example.com" "475209") (fun _ _ => rfl)).1 (by decide),
    (verifyCode_not_found sampleLib (some "k3y") 1000 1001 bobWorld
      (verifyBody "bob@example.com" "475209") (fun _ _ => rfl)).2 bob (by decide) (by decide)⟩

/-! ## C8: what the failure responses reveal -/

/-- C8, as stated, fails: the response for an email without a record and the response for
an enrolled email with a wrong code are different. -/
theorem verifyCode_responses_differ :
    (verify sampleLib (some "k3y") 1000 1001 aliceWorld
        (verifyBody "carol@example.com" "000000")).2 =
      { status := 400, body := Body.error "User not found" } ∧
    (verify sampleLib (some "k3y") 1000 1001 aliceWorld
        (verifyBody "alice@example.com" "000000")).2 =
      { status := 400, body := Body.error "Invalid authentication code" } ∧
    (verify sampleLib (some "k3y") 1000 1001 aliceWorld
        (verifyBody "carol@example.com" "000000")).2 ≠
      (verify sampleLib (some "k3y") 1000 1001 aliceWorld
        (verifyBody "alice@example.com" "000000")).2 := by
  decide!

/-- C8 (amended): for an email that has no record and for an enrolled email submitted with
a code the TOTP check rejects, the two responses of `POST /verify` have the same status,
400, and both carry only an error message, but the messages differ ("User not found" and
"Invalid authentication code"), so the responses are never equal. -/
theorem verifyCode_failure_responses (lib : Lib) (key key2 : Option String)
    (now iat now2 iat2 : Nat) (w w2 : World) (b b2 : VerifyBody) (u : User)
    (h : findOne b.email w.users = none)
    (h2 : findOne b2.email w2.users = some u)
    (hc : lib.verify b2.token u.totpSecret now2 = some false) :
    (verify lib key now iat w b).2.status = 400 ∧
    (verify lib key2 now2 iat2 w2 b2).2.status = 400 ∧
    (verify lib key now iat w b).2.body = Body.error "User not found" ∧
    (verify lib key2 now2 iat2 w2 b2).2.body = Body.error "Invalid authentication code" ∧
    (verify lib key now iat w b).2 ≠ (verify lib key2 now2 iat2 w2 b2).2 := by
  rw [verify_of_none lib key now iat w b h, verify_of_reject lib key2 now2 iat2 w2 b2 u h2 hc]
  exact ⟨rfl, rfl, rfl, rfl, by simp⟩

theorem verifyCode_failure_responses_witness :
    (verify sampleLib (some "k3y") 1000 1001 emptyWorld
        (verifyBody "alice@example.com" "000000")).2.status = 400 ∧
    (verify sampleLib (some "k3y") 1000 1001 aliceWorld
        (verifyBody "alice@example.com" "000000")).2.status = 400 ∧
    (verify sampleLib (some "k3y") 1000 1001 emptyWorld
        (verifyBody "alice@example.com" "000000")).2.body = Body.error "User not found" ∧
    (verify sampleLib (some "k3y") 1000 1001 aliceWorld
        (verifyBody "alice@example.com" "000000")).2.body =
      Body.error "Invalid authentication code" ∧
    (verify sampleLib (some "k3y") 1000 1001 emptyWorld
        (verifyBody "alice@example.com" "000000")).2 ≠
      (verify sampleLib (some "k3y") 1000 1001 aliceWorld
        (verifyBody "alice@example.com" "000000")).2 :=
  verifyCode_failure_responses sampleLib (some "k3y") (some "k3y") 1000 1001 1000 1001
    emptyWorld aliceWorld (verifyBody "alice@example.com" "000000")
    (verifyBody "alice@example.com" "000000") alice (by decide) (by decide) (by decide!)

/-! ## Lemmas for the store-wide properties -/

theorem profilePrepare_some_doc (lib : Lib) (w : World) (b : ProfileBody) (u : User) :
    (profilePrepare lib w b (some u)).2.1 = false ∧
    (profilePrepare lib w b (some u)).1._id = u._id ∧
    (profilePrepare lib w b (some u)).1.email = u.email ∧
    (profilePrepare lib w b (some u)).1.twoFactorEnabled = u.twoFactorEnabled ∧
    (profilePrepare lib w b (some u)).1.firstName = b.firstName ∧
    (profilePrepare lib w b (some u)).1.lastName = b.lastName ∧
    (profilePrepare lib w b (some u)).1.phone = b.phone ∧
    (profilePrepare lib w b (some u)).1.village = b.village ∧
    (profilePrepare lib w b (some u)).1.ageRange = b.ageRange ∧
    (profilePrepare lib w b (some u)).1.educationLevel = b.educationLevel ∧
    (profilePrepare lib w b (some u)).1.occupation = b.occupation ∧
    (profilePrepare lib w b (some u)).1.experienceLevel = b.experienceLevel := by
  cases hf : falsy u.totpSecret
  · rw [profilePrepare_some_set lib w b u hf]
    simp [assignProfile]
  · rw [profilePrepare_some_unset lib w b u hf]
    simp [assignProfile]

theorem profile_users_of_some (lib : Lib) (w : World) (b : ProfileBody) (u : User)
    (h : findOne b.email w.users = some u) :
    (profile lib w b).1.users =
      if b.email = "" then w.users
      else updateOne (profilePrepare lib w b (some u)).1 w.users := by
  obtain ⟨hnew, -, hemail, -⟩ := profilePrepare_some_doc lib w b u
  have hu : u.email = b.email := findOne_email h
  have hw : (profilePrepare lib w b (some u)).2.2.users = w.users := by
    cases hf : falsy u.totpSecret
    · rw [profilePrepare_some_set lib w b u hf]
    · rw [profilePrepare_some_unset lib w b u hf]
  unfold profile
  simp only [h, profileSave_users, hnew, hw, save, hemail, hu]
  by_cases hb : b.email = "" <;> simp [hb]

theorem findById_append {i : Nat} {us : List User} {u : User} (d : User)
    (h : findById i us = some u) : findById i (us ++ [d]) = some u := by
  induction us with
  | nil => simp [findById] at h
  | cons v vs ih =>
    simp only [List.cons_append, findById] at h ⊢
    split
    · simpa [*] using h
    · rename_i hne
      simp only [hne, if_false] at h
      exact ih h

theorem findById_updateOne (i : Nat) (d : User) (us : List User) :
    findById i (updateOne d us) =
      if i = d._id then (findById i us).map (fun _ => d) else findById i us := by
  induction us with
  | nil => simp [findById, updateOne]
  | cons v vs ih =>
    unfold updateOne
    by_cases hv : v._id = d._id
    · by_cases hi : i = d._id
      · simp [hv, hi, findById]
      · have h1 : ¬ v._id = i := fun h => hi (by rw [← h, hv])
        have h2 : ¬ d._id = i := fun h => hi h.symm
        simp [hv, hi, findById, h1, h2]
    · by_cases hi : i = d._id
      · subst hi
        simp only [hv, if_false, findById, ih, if_true]
      · simp only [hv, if_false, findById, ih, hi]

theorem findById_of_mem {us : List User} {u : User} (hd : DistinctIds us) (hm : u ∈ us) :
    findById u._id us = some u := by
  induction us with
  | nil => cases hm
  | cons v vs ih =>
    unfold DistinctIds at hd
    simp only [List.map_cons, List.nodup_cons, List.mem_map, not_exists, not_and] at hd
    rcases List.mem_cons.mp hm with rfl | hmem
    · simp [findById]
    · have hne : ¬ v._id = u._id := fun h => hd.1 u hmem h.symm
      simp only [findById, hne, if_false]
      exact ih hd.2 hmem

theorem findById_append_none {i : Nat} {us : List User} (d : User)
    (h : findById i us = none) :
    findById i (us ++ [d]) = if d._id = i then some d else none := by
  induction us with
  | nil => simp [findById]
  | cons v vs ih =>
    simp only [List.cons_append, findById] at h ⊢
    split
    · rename_i hv; simp [hv] at h
    · rename_i hv
      simp only [hv, if_false] at h
      exact ih h

/-- The collection after `POST /verify`: untouched, unless the email has a record and the
check accepted the code, in which case that record is rewritten with the flag set. -/
theorem verify_users (lib : Lib) (key : Option String) (now iat : Nat) (w : World)
    (b : VerifyBody) :
    (verify lib key now iat w b).1.users = w.users ∨
    ∃ u, findOne b.email w.users = some u ∧ lib.verify b.token u.totpSecret now = some true ∧
      (verify lib key now iat w b).1.users =
        updateOne { u with twoFactorEnabled := true } w.users := by
  cases h : findOne b.email w.users with
  | none => left; rw [verify_of_none lib key now iat w b h]
  | some u =>
    rcases hc : lib.verify b.token u.totpSecret now with _ | _ | _
    · left; rw [verify_of_throw lib key now iat w b u h hc]
    · left; rw [verify_of_reject lib key now iat w b u h hc]
    · by_cases he : b.email = ""
      · left; rw [verify_of_accept_empty lib key now iat w b u h hc he]
      · right
        exact ⟨u, rfl, hc, by rw [verify_of_accept lib key now iat w b u h hc he]⟩

/-! ## C4: when `twoFactorEnabled` changes -/

/-- C4: (1) the record `POST /profile` creates for an email without a record has
`twoFactorEnabled = false`, and so has every record that appears under a new `_id` after
`POST /profile`; (2) `POST /profile` leaves `twoFactorEnabled` of every stored record as it
was, whatever the request body holds; (3) `POST /verify` creates no record, and if a
record goes from `twoFactorEnabled = false` to `true` in `POST /verify`, it is the record
of the submitted email and the TOTP check of the submitted code against its secret
returned true.  Stored `_id`s are assumed pairwise distinct in (2) and (3). -/
theorem twoFactorEnabled_invariant (lib : Lib) (key : Option String) (now iat : Nat)
    (w : World) (pb : ProfileBody) (vb : VerifyBody) :
    (findOne pb.email w.users = none → pb.email ≠ "" →
      ∃ u, findOne pb.email (profile lib w pb).1.users = some u ∧ u.twoFactorEnabled = false) ∧
    (∀ i u, findById i w.users = none → findById i (profile lib w pb).1.users = some u →
      u.twoFactorEnabled = false) ∧
    (DistinctIds w.users → ∀ i u, findById i w.users = some u →
      ∃ v, findById i (profile lib w pb).1.users = some v ∧
        v.twoFactorEnabled = u.twoFactorEnabled) ∧
    (∀ i, findById i w.users = none → findById i (verify lib key now iat w vb).1.users = none) ∧
    (DistinctIds w.users → ∀ i u v, findById i w.users = some u →
      findById i (verify lib key now iat w vb).1.users = some v →
      u.twoFactorEnabled = false → v.twoFactorEnabled = true →
      findOne vb.email w.users = some u ∧ lib.verify vb.token u.totpSecret now = some true) := by
  refine ⟨?_, ?_, ?_, ?_, ?_⟩
  · intro h he
    rw [profile_users_of_none lib w pb h, if_neg he, findOne_append _ h]
    exact ⟨_, if_pos rfl, rfl⟩
  · intro i u hi hu
    cases h : findOne pb.email w.users with
    | none =>
      rw [profile_users_of_none lib w pb h] at hu
      by_cases he : pb.email = ""
      · rw [if_pos he, hi] at hu; cases hu
      · rw [if_neg he, findById_append_none _ hi] at hu
        split at hu
        · cases hu; rfl
        · cases hu
    | some u0 =>
      rw [profile_users_of_some lib w pb u0 h] at hu
      by_cases he : pb.email = ""
      · rw [if_pos he, hi] at hu; cases hu
      · rw [if_neg he, findById_updateOne, hi] at hu
        simp at hu
  · intro hd i u hi
    cases h : findOne pb.email w.users with
    | none =>
      rw [profile_users_of_none lib w pb h]
      by_cases he : pb.email = ""
      · rw [if_pos he]; exact ⟨u, hi, rfl⟩
      · rw [if_neg he]; exact ⟨u, findById_append _ hi, rfl⟩
    | some u0 =>
      rw [profile_users_of_some lib w pb u0 h]
      by_cases he : pb.email = ""
      · rw [if_pos he]; exact ⟨u, hi, rfl⟩
      · rw [if_neg he, findById_updateOne]
        obtain ⟨-, hid, -, htf, -⟩ := profilePrepare_some_doc lib w pb u0
        by_cases hi0 : i = (profilePrepare lib w pb (some u0)).1._id
        · rw [if_pos hi0, hi]
          refine ⟨_, rfl, ?_⟩
          have h0 := findById_of_mem hd (findOne_mem h)
          rw [← hid, ← hi0, hi] at h0
          cases h0
          exact htf
        · rw [if_neg hi0]; exact ⟨u, hi, rfl⟩
  · intro i hi
    rcases verify_users lib key now iat w vb with h | ⟨u0, -, -, h⟩
    · rw [h]; exact hi
    · rw [h, findById_updateOne, hi]; simp
  · intro hd i u v hi hv hu hvt
    rcases verify_users lib key now iat w vb with h | ⟨u0, hf, hc, h⟩
    · rw [h, hi] at hv
      cases hv
      rw [hu] at hvt
      cases hvt
    · rw [h, findById_updateOne] at hv
      by_cases hi0 : i = u0._id
      · have h0 := findById_of_mem hd (findOne_mem hf)
        rw [← hi0, hi] at h0
        cases h0
        exact ⟨hf, hc⟩
      · rw [if_neg hi0, hi] at hv
        cases hv
        rw [hu] at hvt
        cases hvt

theorem twoFactorEnabled_invariant_witness :
    (∃ u, findOne renameAlice.email (profile sampleLib emptyWorld renameAlice).1.users = some u ∧
      u.twoFactorEnabled = false) ∧
    ({ assignProfile (User.create 0 "alice@example.com") renameAlice with
        totpSecret := some "JBSWY3DPEHPK3PXP" } : User).twoFactorEnabled = false ∧
    (∃ v, findById 0 (profile sampleLib aliceWorld renameAlice).1.users = some v ∧
      v.twoFactorEnabled = alice.twoFactorEnabled) ∧
    findById 5 (verify sampleLib (some "k3y") 1000 1001 aliceWorld
      (verifyBody "alice@example.com" "475209")).1.users = none ∧
    (findOne (verifyBody "alice@example.com" "475209").email aliceWorld.users = some alice ∧
      sampleLib.verify (verifyBody "alice@example.com" "475209").token alice.totpSecret 1000 =
        some true) :=
  ⟨(twoFactorEnabled_invariant sampleLib (some "k3y") 1000 1001 emptyWorld renameAlice
      (verifyBody "alice@example.com" "475209")).1 (by decide) (by decide),
    (twoFactorEnabled_invariant sampleLib (some "k3y") 1000 1001 emptyWorld renameAlice
      (verifyBody "alice@example.com" "475209")).2.1 0 _ (by decide) (by decide),
    (twoFactorEnabled_invariant sampleLib (some "k3y") 1000 1001 aliceWorld renameAlice
      (verifyBody "alice@example.com" "475209")).2.2.1 (by decide) 0 alice (by decide),
    (twoFactorEnabled_invariant sampleLib (some "k3y") 1000 1001 aliceWorld renameAlice
      (verifyBody "alice@example.com" "475209")).2.2.2.1 5 (by decide),
    (twoFactorEnabled_invariant sampleLib (some "k3y") 1000 1001 aliceWorld renameAlice
      (verifyBody "alice@example.com" "475209")).2.2.2.2 (by decide) 0 alice
      { alice with twoFactorEnabled := true } (by decide) (by decide!) (by decide) (by decide)⟩

/-! ## C5: how the profile fields are merged -/

/-- C5, as stated, fails: a profile request for a stored record that omits `lastName`
does not keep the stored last name; the path is unset afterwards. -/
theorem saveProfile_omitted_cleared :
    findOne "alice@example.com" aliceWorld.users = some alice ∧
    alice.lastName = some "A" ∧ renameAlice.lastName = none ∧
    (findOne "alice@example.com" (profile sampleLib aliceWorld renameAlice).1.users).map
      User.lastName = some none := by
  decide

/-- C5 (amended): for every stored record (under a non-empty email) and every
`POST /profile` request for its email, each of the eight profile paths of the stored
record is afterwards exactly what the request holds for it: a provided value replaces the
stored one, and a path the request omits is unset; `_id`, `email` and `twoFactorEnabled`
are as before. -/
theorem saveProfile_assigns_all (lib : Lib) (w : World) (b : ProfileBody) (u : User)
    (h : findOne b.email w.users = some u) (he : b.email ≠ "") :
    ∃ v, findOne b.email (profile lib w b).1.users = some v ∧
      v.firstName = b.firstName ∧ v.lastName = b.lastName ∧ v.phone = b.phone ∧
      v.village = b.village ∧ v.ageRange = b.ageRange ∧
      v.educationLevel = b.educationLevel ∧ v.occupation = b.occupation ∧
      v.experienceLevel = b.experienceLevel ∧
      v._id = u._id ∧ v.email = u.email ∧ v.twoFactorEnabled = u.twoFactorEnabled := by
  obtain ⟨-, hid, hemail, htf, h1, h2, h3, h4, h5, h6, h7, h8⟩ :=
    profilePrepare_some_doc lib w b u
  refine ⟨(profilePrepare lib w b (some u)).1, ?_, h1, h2, h3, h4, h5, h6, h7, h8, hid,
    hemail, htf⟩
  rw [profile_users_of_some lib w b u h, if_neg he]
  exact findOne_updateOne h hid (hemail.trans (findOne_email h))

theorem saveProfile_assigns_all_witness :
    ∃ v, findOne renameAlice.email (profile sampleLib aliceWorld renameAlice).1.users = some v ∧
      v.firstName = renameAlice.firstName ∧ v.lastName = renameAlice.lastName ∧
      v.phone = renameAlice.phone ∧ v.village = renameAlice.village ∧
      v.ageRange = renameAlice.ageRange ∧ v.educationLevel = renameAlice.educationLevel ∧
      v.occupation = renameAlice.occupation ∧
      v.experienceLevel = renameAlice.experienceLevel ∧
      v._id = alice._id ∧ v.email = alice.email ∧
      v.twoFactorEnabled = alice.twoFactorEnabled :=
  saveProfile_assigns_all sampleLib aliceWorld renameAlice alice (by decide) (by decide)

/-! ## Lemmas for two concurrent runs -/

theorem updateOne_append_fresh (d x : User) (us : List User)
    (h : ∀ u ∈ us, ¬ u._id = d._id) :
    updateOne d (us ++ [x]) = us ++ [if x._id = d._id then d else x] := by
  induction us with
  | nil => simp only [List.nil_append, updateOne]; split <;> rfl
  | cons v vs ih =>
    have hv : ¬ v._id = d._id := h v (List.mem_cons_self _ _)
    have ih2 := ih (fun u hu => h u (List.mem_cons_of_mem _ hu))
    show updateOne d (v :: (vs ++ [x])) = v :: (vs ++ [if x._id = d._id then d else x])
    simp only [updateOne, hv, if_false, ih2]

theorem recordsOf_append (e : String) (us : List User) (d : User) :
    recordsOf e (us ++ [d]) = recordsOf e us ++ if d.email = e then [d] else [] := by
  unfold recordsOf
  rw [List.filter_append]
  by_cases h : d.email = e <;> simp [List.filter, h]

theorem recordsOf_of_findOne_none {e : String} {us : List User}
    (h : findOne e us = none) : recordsOf e us = [] := by
  induction us with
  | nil => rfl
  | cons v vs ih =>
    unfold findOne at h
    split at h
    · cases h
    · rename_i hne
      have ih2 := ih h
      unfold recordsOf at ih2 ⊢
      simp only [List.filter, hne, decide_False]
      exact ih2

theorem stored_inj {w0 w : World} {d d1 : User} (h : Stored w0 w d) (h1 : Stored w0 w d1) :
    d = d1 := by
  unfold Stored at h h1
  rw [h] at h1
  simpa using h1

theorem stored_good {w0 w : World} {e : String} {d : User} (hW : WorldInv w0 e w)
    (h : Stored w0 w d) :
    d.email = e ∧ w0.nextId ≤ d._id ∧ falsy d.totpSecret = false := by
  rcases hW.2 with h0 | ⟨d1, hs, hgood⟩
  · unfold Stored at h
    rw [h0] at h
    simp at h
  · rw [stored_inj h hs]; exact hgood

theorem sameIdentity_refl (d : User) : SameIdentity d d := ⟨rfl, rfl, rfl⟩

theorem sameIdentity_trans {a b c : User} (h : SameIdentity a b) (h1 : SameIdentity b c) :
    SameIdentity a c :=
  ⟨h1.1.trans h.1, h1.2.1.trans h.2.1, h1.2.2.trans h.2.2⟩

theorem sameIdentity_symm {a b : User} (h : SameIdentity a b) : SameIdentity b a :=
  ⟨h.1.symm, h.2.1.symm, h.2.2.symm⟩

theorem extends_refl (w0 w : World) : Extends w0 w w :=
  ⟨Nat.le_refl _, fun d hd => ⟨d, hd, sameIdentity_refl d⟩⟩

theorem runInv_mono {w0 w w1 : World} {e : String} {t : Run} (hx : Extends w0 w w1)
    (hT : RunInv w0 e w t) : RunInv w0 e w1 t := by
  cases t with
  | start b => exact hT
  | loaded b found =>
    refine ⟨hT.1, ?_⟩
    rcases hT.2 with h | ⟨d0, d, hf, hs, hsame⟩
    · exact Or.inl h
    · obtain ⟨d1, hs1, hsame1⟩ := hx.2 d hs
      exact Or.inr ⟨d0, d1, hf, hs1, sameIdentity_trans (sameIdentity_symm hsame1) hsame⟩
  | ready b user isNew =>
    obtain ⟨h1, h2, h3, h4, h5⟩ := hT
    refine ⟨h1, h2, h3, h4, fun hn => ?_⟩
    obtain ⟨d, hs, hsame⟩ := h5 hn
    obtain ⟨d1, hs1, hsame1⟩ := hx.2 d hs
    exact ⟨d1, hs1, sameIdentity_trans (sameIdentity_symm hsame1) hsame⟩
  | done r =>
    obtain ⟨d, hs, hr⟩ := hT
    obtain ⟨d1, hs1, hsame1⟩ := hx.2 d hs
    exact ⟨d1, hs1, fun uri hu => (hr uri hu).trans hsame1.2.2.symm⟩

theorem profileSave_of_none (lib : Lib) (w : World) (b : ProfileBody) (d : User) (isNew : Bool)
    (h : save w.users d isNew = none) : profileSave lib w b d isNew = (w, serverError) := by
  simp [profileSave, h]

theorem profileSave_of_some (lib : Lib) (w : World) (b : ProfileBody) (d : User) (isNew : Bool)
    (us : List User) (h : save w.users d isNew = some us) :
    (profileSave lib w b d isNew).1 = { w with users := us, log := w.log ++ [Call.saved d] } ∧
    ∀ uri, (profileSave lib w b d isNew).2.artifact = some uri → uri.secret = d.totpSecret := by
  unfold profileSave
  simp only [h]
  split
  · refine ⟨rfl, fun uri hu => ?_⟩
    simp only [Response.artifact, Option.some.injEq] at hu
    rw [← hu]; rfl
  · refine ⟨rfl, fun uri hu => ?_⟩
    simp [Response.artifact, serverError] at hu



theorem step_ready (lib : Lib) (w : World) (b : ProfileBody) (user : User) (isNew : Bool) :
    Run.step lib w (Run.ready b user isNew) =
      ((profileSave lib w b user isNew).1, Run.done (profileSave lib w b user isNew).2) := rfl

theorem step_inv (lib : Lib) (w0 : World) (e : String) (hne : e ≠ "")
    (hnone : findOne e w0.users = none) (hfresh : w0.Fresh)
    (hgen : ∀ n, lib.generateSecret n ≠ "") (w : World) (t : Run)
    (hW : WorldInv w0 e w) (hT : RunInv w0 e w t) :
    WorldInv w0 e (t.step lib w).1 ∧ RunInv w0 e (t.step lib w).1 (t.step lib w).2 ∧
      Extends w0 w (t.step lib w).1 := by
  cases t with
  | start b =>
    refine ⟨hW, ⟨hT, ?_⟩, extends_refl w0 w⟩
    have hb : b.email = e := hT
    rcases hW.2 with h0 | ⟨d, hs, hde, -, -⟩
    · left; rw [hb, h0]; exact hnone
    · right
      refine ⟨d, d, ?_, hs, sameIdentity_refl d⟩
      rw [hb, hs, findOne_append d hnone, if_pos hde]
  | loaded b found =>
    obtain ⟨hb, hfound⟩ := hT
    rcases hfound with rfl | ⟨d0, d, rfl, hs, hsame⟩
    · simp only [Run.step, profilePrepare_none]
      refine ⟨⟨Nat.le_succ_of_le hW.1, hW.2⟩, ⟨hb, hb, ?_, fun _ => hW.1, fun h => (by cases h)⟩,
        ⟨Nat.le_succ _, fun d hd => ⟨d, hd, sameIdentity_refl d⟩⟩⟩
      exact falsy_some (hgen _)
    · obtain ⟨hde, hid, hfalsy⟩ := stored_good hW hs
      have hf0 : falsy d0.totpSecret = false := by rw [hsame.2.2]; exact hfalsy
      simp only [Run.step, profilePrepare_some_set lib w b d0 hf0]
      refine ⟨hW, ⟨hb, ?_, hf0, fun h => (by cases h), fun _ => ⟨d, hs, hsame⟩⟩, extends_refl w0 w⟩
      show d0.email = e
      rw [hsame.2.1, hde]
  | ready b user isNew =>
    obtain ⟨hb, hue, hfalsy, hnew, hold⟩ := hT
    have hue' : ¬ user.email = "" := by rw [hue]; exact hne
    rw [step_ready]
    cases isNew with
    | true =>
      rcases hW.2 with h0 | ⟨d, hs, hde, hid, hdf⟩
      · have hsave : save w.users user true = some (w.users ++ [user]) := by
          simp [save, hue, hne, h0, hnone]
        obtain ⟨hw1, hr⟩ := profileSave_of_some lib w b user true _ hsave
        have hst : Stored w0 (profileSave lib w b user true).1 user := by
          rw [hw1]; show w.users ++ [user] = w0.users ++ [user]; rw [h0]
        refine ⟨⟨by rw [hw1]; exact hW.1, Or.inr ⟨user, hst, hue, hnew rfl, hfalsy⟩⟩,
          ⟨user, hst, hr⟩, ⟨by rw [hw1], fun d hd => ?_⟩⟩
        exfalso
        unfold Stored at hd
        rw [h0] at hd
        simp at hd
      · have hsave : save w.users user true = none := by
          have : findOne e w.users = some d := by
            rw [hs, findOne_append d hnone, if_pos hde]
          simp [save, hue, hne, this]
        simp only [profileSave_of_none lib w b user true hsave]
        refine ⟨hW, ⟨d, hs, fun uri hu => ?_⟩, extends_refl w0 w⟩
        simp [Response.artifact, serverError] at hu
    | false =>
      obtain ⟨d, hs, hsame⟩ := hold rfl
      obtain ⟨hde, hid, hdf⟩ := stored_good hW hs
      have hupd : updateOne user w.users = w0.users ++ [user] := by
        rw [hs, updateOne_append_fresh]
        · rw [if_pos hsame.1.symm]
        · intro u hu huid
          have := hfresh u hu
          rw [huid, hsame.1] at this
          exact absurd hid (Nat.not_le.mpr this)
      have hsave : save w.users user false = some (w0.users ++ [user]) := by
        simp [save, hue', hupd]
      obtain ⟨hw1, hr⟩ := profileSave_of_some lib w b user false _ hsave
      have hst : Stored w0 (profileSave lib w b user false).1 user := by
        rw [hw1]; rfl
      refine ⟨⟨by rw [hw1]; exact hW.1, Or.inr ⟨user, hst, hue, ?_, hfalsy⟩⟩,
        ⟨user, hst, hr⟩, ⟨by rw [hw1], fun d1 hd1 => ?_⟩⟩
      · rw [hsame.1]; exact hid
      · rw [← stored_inj hs hd1]
        exact ⟨user, hst, hsame⟩
  | done r => exact ⟨hW, hT, extends_refl w0 w⟩



theorem step_remaining (lib : Lib) (w : World) (t : Run) :
    (t.step lib w).2.remaining = t.remaining - 1 := by
  cases t <;> rfl

theorem remaining_zero {t : Run} (h : t.remaining = 0) : ∃ r, t = Run.done r := by
  cases t with
  | done r => exact ⟨r, rfl⟩
  | start b => cases h
  | loaded b f => cases h
  | ready b u n => cases h

theorem run_remaining (lib : Lib) (s : List Bool) (p : Pair) :
    (Pair.run lib s p).first.remaining = p.first.remaining - s.count true ∧
    (Pair.run lib s p).second.remaining = p.second.remaining - s.count false := by
  induction s generalizing p with
  | nil => simp [Pair.run]
  | cons c s ih =>
    cases c with
    | true =>
      simp only [Pair.run, List.count_cons_self]
      obtain ⟨h1, h2⟩ := ih { p with world := (p.first.step lib p.world).1,
                                     first := (p.first.step lib p.world).2 }
      rw [h1, h2, step_remaining]
      simp
      omega
    | false =>
      simp only [Pair.run, List.count_cons_self]
      obtain ⟨h1, h2⟩ := ih { p with world := (p.second.step lib p.world).1,
                                     second := (p.second.step lib p.world).2 }
      rw [h1, h2, step_remaining]
      simp
      omega

theorem run_inv (lib : Lib) (w0 : World) (e : String) (hne : e ≠ "")
    (hnone : findOne e w0.users = none) (hfresh : w0.Fresh)
    (hgen : ∀ n, lib.generateSecret n ≠ "") (s : List Bool) (p : Pair)
    (hW : WorldInv w0 e p.world) (h1 : RunInv w0 e p.world p.first)
    (h2 : RunInv w0 e p.world p.second) :
    WorldInv w0 e (Pair.run lib s p).world ∧
    RunInv w0 e (Pair.run lib s p).world (Pair.run lib s p).first ∧
    RunInv w0 e (Pair.run lib s p).world (Pair.run lib s p).second := by
  induction s generalizing p with
  | nil => exact ⟨hW, h1, h2⟩
  | cons c s ih =>
    cases c with
    | true =>
      obtain ⟨hW1, hT1, hx⟩ := step_inv lib w0 e hne hnone hfresh hgen p.world p.first hW h1
      exact ih { p with world := (p.first.step lib p.world).1,
                        first := (p.first.step lib p.world).2 } hW1 hT1 (runInv_mono hx h2)
    | false =>
      obtain ⟨hW1, hT1, hx⟩ := step_inv lib w0 e hne hnone hfresh hgen p.world p.second hW h2
      exact ih { p with world := (p.second.step lib p.world).1,
                        second := (p.second.step lib p.world).2 } hW1 (runInv_mono hx h1) hT1

/-! ## C10: two concurrent first-time enrollments -/

/-- C10 (amended): two runs of `POST /profile` for the same non-empty email, unseen in a
world whose stored `_id`s are below the ObjectId counter, with `generateSecret` returning
non-empty strings, interleaved by any schedule that gives each run its three steps: both
runs finish, exactly one record is stored for the email, its `totpSecret` is a set secret,
and every provisioning URI that a run rendered carries that secret. -/
theorem concurrent_first_enrollment (lib : Lib) (w : World) (b1 b2 : ProfileBody)
    (s : List Bool) (he : b2.email = b1.email) (hne : b1.email ≠ "")
    (hnone : findOne b1.email w.users = none) (hfresh : w.Fresh)
    (hgen : ∀ n, lib.generateSecret n ≠ "")
    (h1 : 3 ≤ s.count true) (h2 : 3 ≤ s.count false) :
    ∃ r1 r2 d sec,
      (Pair.run lib s (Pair.init w b1 b2)).first = Run.done r1 ∧
      (Pair.run lib s (Pair.init w b1 b2)).second = Run.done r2 ∧
      recordsOf b1.email (Pair.run lib s (Pair.init w b1 b2)).world.users = [d] ∧
      d.totpSecret = some sec ∧ sec ≠ "" ∧
      (∀ uri, r1.artifact = some uri → uri.secret = some sec) ∧
      (∀ uri, r2.artifact = some uri → uri.secret = some sec) := by
  obtain ⟨hr1, hr2⟩ := run_remaining lib s (Pair.init w b1 b2)
  obtain ⟨r1, hd1⟩ := remaining_zero (t := (Pair.run lib s (Pair.init w b1 b2)).first)
    (by rw [hr1]; simp [Pair.init, Run.remaining]; omega)
  obtain ⟨r2, hd2⟩ := remaining_zero (t := (Pair.run lib s (Pair.init w b1 b2)).second)
    (by rw [hr2]; simp [Pair.init, Run.remaining]; omega)
  obtain ⟨hW, hT1, hT2⟩ := run_inv lib w b1.email hne hnone hfresh hgen s (Pair.init w b1 b2)
    ⟨Nat.le_refl _, Or.inl rfl⟩ rfl he
  rw [hd1] at hT1
  rw [hd2] at hT2
  obtain ⟨d, hs, ha1⟩ := hT1
  obtain ⟨d2, hs2, ha2⟩ := hT2
  obtain ⟨hde, -, hdf⟩ := stored_good hW hs
  rw [← stored_inj hs hs2] at ha2
  cases hsec : d.totpSecret with
  | none => rw [hsec] at hdf; simp [falsy] at hdf
  | some sec =>
    refine ⟨r1, r2, d, sec, hd1, hd2, ?_, hsec, ?_, fun uri hu => ?_, fun uri hu => ?_⟩
    · rw [hs, recordsOf_append, recordsOf_of_findOne_none hnone, if_pos hde]; rfl
    · intro h0; rw [hsec, h0] at hdf; simp [falsy] at hdf
    · rw [ha1 uri hu, hsec]
    · rw [ha2 uri hu, hsec]

theorem concurrent_first_enrollment_witness :
    ∃ r1 r2 d sec,
      (Pair.run sampleLib [true, false, true, false, true, false]
        (Pair.init emptyWorld (newProfile "dana@example.com" "Dana")
          (newProfile "dana@example.com" "D."))).first = Run.done r1 ∧
      (Pair.run sampleLib [true, false, true, false, true, false]
        (Pair.init emptyWorld (newProfile "dana@example.com" "Dana")
          (newProfile "dana@example.com" "D."))).second = Run.done r2 ∧
      recordsOf (newProfile "dana@example.com" "Dana").email
        (Pair.run sampleLib [true, false, true, false, true, false]
          (Pair.init emptyWorld (newProfile "dana@example.com" "Dana")
            (newProfile "dana@example.com" "D."))).world.users = [d] ∧
      d.totpSecret = some sec ∧ sec ≠ "" ∧
      (∀ uri, r1.artifact = some uri → uri.secret = some sec) ∧
      (∀ uri, r2.artifact = some uri → uri.secret = some sec) :=
  concurrent_first_enrollment sampleLib emptyWorld (newProfile "dana@example.com" "Dana")
    (newProfile "dana@example.com" "D.") [true, false, true, false, true, false] rfl
    (by decide) (by decide) (fun _ hu => nomatch hu) sampleSecret_ne (by decide) (by decide)

/-- C10, as stated, fails: when both runs query before either saves, both find no record
and both draw a secret; the first insert is stored, the second is refused by the unique
index on `email`, and the second caller is answered 500 "Server error": no provisioning
URI is rendered for it. -/
theorem concurrent_second_insert_rejected :
    (Pair.run sampleLib [true, false]
      (Pair.init emptyWorld (newProfile "dana@example.com" "Dana")
        (newProfile "dana@example.com" "D."))).first =
      Run.loaded (newProfile "dana@example.com" "Dana") none ∧
    (Pair.run sampleLib [true, false]
      (Pair.init emptyWorld (newProfile "dana@example.com" "Dana")
        (newProfile "dana@example.com" "D."))).second =
      Run.loaded (newProfile "dana@example.com" "D.") none ∧
    (Pair.run sampleLib [true, false, true, false, true, false]
      (Pair.init emptyWorld (newProfile "dana@example.com" "Dana")
        (newProfile "dana@example.com" "D."))).world.drawn = 2 ∧
    storedSecret "dana@example.com"
      (Pair.run sampleLib [true, false, true, false, true, false]
        (Pair.init emptyWorld (newProfile "dana@example.com" "Dana")
          (newProfile "dana@example.com" "D."))).world.users = some "JBSWY3DPEHPK3PXP" ∧
    (Pair.run sampleLib [true, false, true, false, true, false]
      (Pair.init emptyWorld (newProfile "dana@example.com" "Dana")
        (newProfile "dana@example.com" "D."))).first.artifactSecret =
      some (some "JBSWY3DPEHPK3PXP") ∧
    (Pair.run sampleLib [true, false, true, false, true, false]
      (Pair.init emptyWorld (newProfile "dana@example.com" "Dana")
        (newProfile "dana@example.com" "D."))).second = Run.done serverError ∧
    (Pair.run sampleLib [true, false, true, false, true, false]
      (Pair.init emptyWorld (newProfile "dana@example.com" "Dana")
        (newProfile "dana@example.com" "D."))).second.artifactSecret = none := by
  decide

/-! ## C9: the signing key at startup -/

/-- The run of `server.js` does not look at `JWT_SECRET`: it reaches `listening` exactly
when its modules load, the port is free, `MONGO_URI` is non-empty, the database connects
and the server listens, whatever the signing key is.  When the key is absent or empty and
the server listens, a `POST /verify` for a stored (non-empty) email with an accepted code
is served: it stores the record with `twoFactorEnabled = true`, then calls `jwt.sign` with
that missing key and answers 500 "Server error" without a credential. -/
theorem signing_key_not_checked_at_startup (lib : Lib) (env : ProcessEnv)
    (authMiddleware portFree mongoUp listens : Bool) (now iat : Nat) (w : World)
    (b : VerifyBody) (u : User) :
    (startServer env authMiddleware portFree mongoUp listens = Startup.listening ↔
      authMiddleware = true ∧ portFree = true ∧ falsy env.MONGO_URI = false ∧
        mongoUp = true ∧ listens = true) ∧
    (∀ key, startServer { env with JWT_SECRET := key } authMiddleware portFree mongoUp listens =
      startServer env authMiddleware portFree mongoUp listens) ∧
    (falsy env.JWT_SECRET = true →
      startServer env authMiddleware portFree mongoUp listens = Startup.listening →
      findOne b.email w.users = some u → lib.verify b.token u.totpSecret now = some true →
      b.email ≠ "" →
      ∃ w1, serveVerify lib env authMiddleware portFree mongoUp listens now iat w b =
          some (w1, serverError) ∧
        findOne b.email w1.users = some { u with twoFactorEnabled := true } ∧
        w1.log = w.log ++ [Call.totpVerify b.token u.totpSecret,
          Call.saved { u with twoFactorEnabled := true },
          Call.jwtSign u._id u.email env.JWT_SECRET] ∧
        serverError.credential = none) := by
  refine ⟨?_, fun key => rfl, ?_⟩
  · unfold startServer connectToMongoDB
    cases authMiddleware <;> cases portFree <;> cases mongoUp <;> cases listens <;>
      cases falsy env.MONGO_URI <;> simp
  · intro hkey hstart h hc he
    have hsign : jwtSign u._id u.email env.JWT_SECRET oneHour iat = none := by
      cases hk : env.JWT_SECRET with
      | none => rfl
      | some k =>
        rw [hk] at hkey
        have : k = "" := by simpa [falsy] using hkey
        simp [jwtSign, this]
    have hu : u.email = b.email := findOne_email h
    refine ⟨{ w with users := updateOne { u with twoFactorEnabled := true } w.users,
                     log := w.log ++ [Call.totpVerify b.token u.totpSecret] ++
                       [Call.saved { u with twoFactorEnabled := true },
                         Call.jwtSign u._id u.email env.JWT_SECRET] }, ?_, ?_, ?_, rfl⟩
    · unfold serveVerify
      rw [hstart, verify_of_accept lib env.JWT_SECRET now iat w b u h hc he, hsign]
    · exact findOne_updateOne (d := { u with twoFactorEnabled := true }) h rfl hu
    · simp

/-- C9 fails on the code.  With `MONGO_URI` set and `JWT_SECRET` absent, the run of
`server.js` (its modules loading, the port free, the database up) reaches `listening`: no
startup step looks at the signing key, while a missing `MONGO_URI` does end the process.
A `POST /verify` for the enrolled record of `alice` with her current code is then served:
it stores `twoFactorEnabled = true`, only then calls `jwt.sign` with the missing key, and
is answered 500 "Server error".  (On the sources as they are the module required by
`routes/dashboard.js` is absent and the process exits while loading.) -/
theorem startup_without_signing_key :
    envWithoutKey.JWT_SECRET = none ∧
    startServer envWithoutKey true true true true = Startup.listening ∧
    startServer { envWithoutKey with MONGO_URI := none } true true true true =
      Startup.exited 1 ∧
    startServer envWithoutKey false true true true = Startup.exited 1 ∧
    sampleLib.verify (some "475209") alice.totpSecret 1000 = some true ∧
    (serveVerify sampleLib envWithoutKey true true true true 1000 1001 aliceWorld
        (verifyBody "alice@example.com" "475209")).map (fun x => x.2) = some serverError ∧
    (serveVerify sampleLib envWithoutKey true true true true 1000 1001 aliceWorld
        (verifyBody "alice@example.com" "475209")).map (fun x => x.1.users) =
      some [{ alice with twoFactorEnabled := true }] ∧
    (serveVerify sampleLib envWithoutKey true true true true 1000 1001 aliceWorld
        (verifyBody "alice@example.com" "475209")).map (fun x => x.1.log) =
      some [Call.totpVerify (some "475209") (some "JBSWY3DPEHPK3PXP"),
        Call.saved { alice with twoFactorEnabled := true },
        Call.jwtSign 0 "alice@example.com" none] := by
  decide!

/-! ## Lemmas on the TOTP check -/

theorem digit_isDigit (d : Nat) (h : d < 10) : (Char.ofNat (48 + d)).isDigit = true := by
  interval_cases d <;> decide

theorem decimalDigits_length (w n : Nat) : (decimalDigits w n).length = w := by
  induction w generalizing n with
  | zero => rfl
  | succ w ih => simp [decimalDigits, ih]

theorem decimalDigits_all (w n : Nat) : (decimalDigits w n).all Char.isDigit = true := by
  induction w generalizing n with
  | zero => rfl
  | succ w ih =>
    simp only [decimalDigits, List.all_append, ih, Bool.true_and, List.all_cons, List.all_nil,
      Bool.and_true]
    exact digit_isDigit _ (Nat.mod_lt _ (by decide))

theorem isTokenValid_hotpToken (key : List Nat) (counter digits : Nat) (h : 0 < digits) :
    isTokenValid (hotpToken key counter digits) = true := by
  unfold isTokenValid hotpToken
  simp only [decimalDigits_all, Bool.and_true, Bool.not_eq_true', List.isEmpty_eq_false]
  intro h0
  have := congrArg List.length h0
  rw [decimalDigits_length] at this
  simp at this
  omega

theorem totpCheck_iff (token : String) (key : List Nat) (epoch : Nat) (o : TotpOptions)
    (h : 0 < o.digits) :
    totpCheck token key epoch o = true ↔ token = totpToken key epoch o := by
  unfold totpCheck
  constructor
  · intro hc
    simp only [Bool.and_eq_true, decide_eq_true_eq] at hc
    exact hc.2
  · intro ht
    rw [ht]
    simp [totpToken, isTokenValid_hotpToken key _ _ h]

/-- What the windowed check accepts: the token of the step of `epoch`, or of a step at
most `window` steps before or after it. -/
theorem totpCheckWithWindow_iff (token : String) (key : List Nat) (epoch : Nat)
    (o : TotpOptions) (h : 0 < o.digits) :
    totpCheckWithWindow token key epoch o = true ↔
      token = totpToken key epoch o ∨
      ∃ i, i < o.window ∧
        (((i + 1) * o.step ≤ epoch ∧ token = totpToken key (epoch - (i + 1) * o.step) o) ∨
          token = totpToken key (epoch + (i + 1) * o.step) o) := by
  unfold totpCheckWithWindow
  simp only [Bool.or_eq_true, List.any_eq_true, List.mem_range, Bool.and_eq_true,
    decide_eq_true_eq, totpCheck_iff _ _ _ _ h]

/-- With a window of one step the check would accept, at every `now` within 29 seconds of
`t`, the code derived for `t`. -/
theorem totpCheckWithWindow_one (key : List Nat) (t now : Nat)
    (h1 : now ≤ t + 29) (h2 : t ≤ now + 29) :
    totpCheckWithWindow (deriveCode key t) key now { step := 30, window := 1, digits := 6 }
      = true := by
  rw [totpCheckWithWindow_iff _ _ _ _ (by decide)]
  simp only [deriveCode, totpToken, authenticatorDefaults]
  rcases Nat.lt_trichotomy (now / 30) (t / 30) with hlt | heq | hgt
  · right
    refine ⟨0, by decide, Or.inr ?_⟩
    have : (now + (0 + 1) * 30) / 30 = t / 30 := by omega
    rw [this]
  · left; rw [heq]
  · right
    refine ⟨0, by decide, Or.inl ⟨by omega, ?_⟩⟩
    have : (now - (0 + 1) * 30) / 30 = t / 30 := by omega
    rw [this]

theorem authenticatorCheck_iff (token : String) (key : List Nat) (now : Nat) :
    authenticatorCheck token key now = true ↔ token = deriveCode key now := by
  unfold authenticatorCheck
  rw [totpCheckWithWindow_iff _ _ _ _ (by decide)]
  simp [authenticatorDefaults, deriveCode]

theorem authenticatorVerify_iff (decode : String → Option (List Nat)) (token : Option String)
    (secret : String) (key : List Nat) (now : Nat) (hd : decode secret = some key) :
    authenticatorVerify decode token (some secret) now =
      some (decide (token = some (deriveCode key now))) := by
  unfold authenticatorVerify
  simp only [hd]
  cases token with
  | none => simp
  | some tok =>
    simp only [Option.some.injEq]
    by_cases h : tok = deriveCode key now
    · simp [h, (authenticatorCheck_iff _ key now).mpr rfl]
    · have : authenticatorCheck tok key now = false := by
        cases hc : authenticatorCheck tok key now with
        | false => rfl
        | true => exact absurd ((authenticatorCheck_iff tok key now).mp hc) h
      simp [h, this]

/-- The SHA-1 digest of "abc" (FIPS 180). -/
theorem sha1_abc :
    sha1 [97, 98, 99] =
      [0xa9, 0x99, 0x3e, 0x36, 0x47, 0x06, 0x81, 0x6a, 0xba, 0x3e,
       0x25, 0x71, 0x78, 0x50, 0xc2, 0x6c, 0x9c, 0xd0, 0xd8, 0x9d] := by
  decide!

/-- The HOTP tokens of RFC 4226, appendix D, for counters 0 to 3, and the 6-digit form
of the RFC 6238 token for time 1111111109, which starts with a zero. -/
theorem hotp_rfc4226 :
    hotpToken rfcKey 0 6 = "755224" ∧ hotpToken rfcKey 1 6 = "287082" ∧
    hotpToken rfcKey 2 6 = "359152" ∧ hotpToken rfcKey 3 6 = "969429" ∧
    deriveCode rfcKey 1111111109 = "081804" ∧
    authenticatorCheck "81804" rfcKey 1111111109 = false := by
  decide!

/-! ## C6: the window of the TOTP check -/

/-- C6, as stated, fails: for the record of `erin`, enrolled with the RFC 4226 test key,
the code derived for `t = 29` ("755224") is accepted by `POST /verify` at `now = 29` and
rejected with "Invalid authentication code" at `now = 30`, one second later and well
inside `[t - 29, t + 29]`: time 30 lies in the next 30-second step, and with the window
of 0 the library starts with only the step of `now` is tried. -/
theorem authenticator_rejects_next_step :
    findOne "erin@example.com" erinWorld.users = some erin ∧
    erin.totpSecret.bind base32Decode = some rfcKey ∧
    deriveCode rfcKey 29 = "755224" ∧ 29 - 29 ≤ 30 ∧ 30 ≤ 29 + 29 ∧
    (verify sampleLib (some "k3y") 29 29 erinWorld
        (verifyBody "erin@example.com" "755224")).2.status = 200 ∧
    authenticatorCheck "755224" rfcKey 30 = false ∧
    sampleLib.verify (some "755224") erin.totpSecret 30 = some false ∧
    (verify sampleLib (some "k3y") 30 30 erinWorld
        (verifyBody "erin@example.com" "755224")).2 =
      { status := 400, body := Body.error "Invalid authentication code" } := by
  decide!

/-- C6 (amended): for every stored record whose secret decodes to a key, the check that
`POST /verify` performs (`authenticator.verify` with the options the library starts
with, window 0) accepts the code derived for `t` at every `now` in the same 30-second
step as `t`; it accepts a submitted token at `now` exactly when the token is the code
derived for the step of `now`, and the handler answers "Invalid authentication code"
exactly when it is not; no neighbouring step is tried, and there are a key and times
`t`, `now` within 29 seconds of each other at which the code derived for `t` is rejected
at `now`. -/
theorem authenticator_same_step (decode : String → Option (List Nat))
    (generateSecret : Nat → String) (toDataURL : KeyUri → Bool) (JWT_SECRET : Option String)
    (t now iat : Nat) (w : World) (b : VerifyBody) (u : User) (secret : String)
    (key : List Nat)
    (h : findOne b.email w.users = some u) (hs : u.totpSecret = some secret)
    (hd : decode secret = some key) :
    (now / 30 = t / 30 →
      (otplib decode generateSecret toDataURL).verify (some (deriveCode key t)) u.totpSecret
        now = some true) ∧
    ((otplib decode generateSecret toDataURL).verify b.token u.totpSecret now = some true ↔
      b.token = some (deriveCode key now)) ∧
    ((verify (otplib decode generateSecret toDataURL) JWT_SECRET now iat w b).2 =
        { status := 400, body := Body.error "Invalid authentication code" } ↔
      b.token ≠ some (deriveCode key now)) ∧
    (∃ k t0 now0, now0 ≤ t0 + 29 ∧ t0 ≤ now0 + 29 ∧
      authenticatorCheck (deriveCode k t0) k now0 = false) := by
  have hv : ∀ token, (otplib decode generateSecret toDataURL).verify token u.totpSecret now =
      some (decide (token = some (deriveCode key now))) := by
    intro token
    rw [hs]
    exact authenticatorVerify_iff decode token secret key now hd
  refine ⟨?_, ?_, ?_, ⟨rfcKey, 29, 30, by decide, by decide, by decide!⟩⟩
  · intro hstep
    rw [hv]
    have : deriveCode key t = deriveCode key now := by
      simp only [deriveCode, totpToken, authenticatorDefaults, hstep]
    simp [this]
  · rw [hv]; simp
  · constructor
    · intro hr htok
      have hc : (otplib decode generateSecret toDataURL).verify b.token u.totpSecret now =
          some true := by rw [hv]; simp [htok]
      by_cases he : b.email = ""
      · rw [verify_of_accept_empty _ JWT_SECRET now iat w b u h hc he] at hr
        simp [serverError] at hr
      · rw [verify_of_accept _ JWT_SECRET now iat w b u h hc he] at hr
        cases hj : jwtSign u._id u.email JWT_SECRET oneHour iat with
        | none => rw [hj] at hr; simp [serverError] at hr
        | some tok => rw [hj] at hr; simp at hr
    · intro htok
      have hc : (otplib decode generateSecret toDataURL).verify b.token u.totpSecret now =
          some false := by rw [hv]; simp [htok]
      rw [verify_of_reject _ JWT_SECRET now iat w b u h hc]

theorem authenticator_same_step_witness :
    sampleLib.verify (some (deriveCode aliceKey 990)) alice.totpSecret 1000 = some true ∧
    (sampleLib.verify (verifyBody "alice@example.com" "475209").token alice.totpSecret 1000 =
        some true ↔
      (verifyBody "alice@example.com" "475209").token = some (deriveCode aliceKey 1000)) ∧
    ((verify sampleLib (some "k3y") 1000 1001 aliceWorld
          (verifyBody "alice@example.com" "475209")).2 =
        { status := 400, body := Body.error "Invalid authentication code" } ↔
      (verifyBody "alice@example.com" "475209").token ≠ some (deriveCode aliceKey 1000)) ∧
    (∃ k t0 now0, now0 ≤ t0 + 29 ∧ t0 ≤ now0 + 29 ∧
      authenticatorCheck (deriveCode k t0) k now0 = false) :=
  have h := authenticator_same_step base32Decode sampleSecret (fun _ => true) (some "k3y")
    990 1000 1001 aliceWorld (verifyBody "alice@example.com" "475209") alice
    "JBSWY3DPEHPK3PXP" aliceKey (by decide) (by decide) (by decide!)
  ⟨h.1 (by decide), h.2⟩

/-! ## Every world the backend reaches is well formed -/

theorem updateOne_ids (d : User) (us : List User) :
    (updateOne d us).map User._id = us.map User._id := by
  induction us with
  | nil => rfl
  | cons v vs ih =>
    unfold updateOne
    split
    · rename_i h; simp [h]
    · simp [ih]

theorem fresh_iff (w : World) : w.Fresh ↔ ∀ i ∈ w.users.map User._id, i < w.nextId := by
  unfold World.Fresh
  simp

theorem wellFormed_update {w w1 : World} (d : User) (h : w.WellFormed)
    (hu : w1.users = updateOne d w.users) (hn : w.nextId ≤ w1.nextId) : w1.WellFormed := by
  obtain ⟨hd, hf⟩ := h
  rw [fresh_iff] at hf
  refine ⟨?_, ?_⟩
  · unfold DistinctIds at hd ⊢
    rw [hu, updateOne_ids]; exact hd
  · rw [fresh_iff, hu, updateOne_ids]
    exact fun i hi => Nat.lt_of_lt_of_le (hf i hi) hn

theorem wellFormed_same {w w1 : World} (h : w.WellFormed)
    (hu : w1.users = w.users) (hn : w.nextId ≤ w1.nextId) : w1.WellFormed := by
  obtain ⟨hd, hf⟩ := h
  rw [fresh_iff] at hf
  refine ⟨?_, ?_⟩
  · unfold DistinctIds at hd ⊢
    rw [hu]; exact hd
  · rw [fresh_iff, hu]
    exact fun i hi => Nat.lt_of_lt_of_le (hf i hi) hn

theorem wellFormed_insert {w w1 : World} (d : User) (h : w.WellFormed)
    (hu : w1.users = w.users ++ [d]) (hid : d._id = w.nextId) (hn : w.nextId < w1.nextId) :
    w1.WellFormed := by
  obtain ⟨hd, hf⟩ := h
  rw [fresh_iff] at hf
  refine ⟨?_, ?_⟩
  · unfold DistinctIds at hd ⊢
    rw [hu, List.map_append, List.nodup_append]
    refine ⟨hd, by simp, ?_⟩
    intro i hi hi'
    simp only [List.map_cons, List.map_nil, List.mem_singleton] at hi'
    have := hf i hi
    omega
  · rw [fresh_iff, hu, List.map_append]
    intro i hi
    rcases List.mem_append.mp hi with h1 | h1
    · exact Nat.lt_trans (hf i h1) hn
    · simp only [List.map_cons, List.map_nil, List.mem_singleton] at h1
      omega

theorem profile_nextId (lib : Lib) (w : World) (b : ProfileBody) :
    (profile lib w b).1.nextId =
      if (findOne b.email w.users).isSome then w.nextId else w.nextId + 1 := by
  unfold profile
  simp only [profileSave_drawn]
  cases h : findOne b.email w.users with
  | none => rw [profilePrepare_none]; rfl
  | some u =>
    cases hf : falsy u.totpSecret
    · rw [profilePrepare_some_set lib w b u hf]; rfl
    · rw [profilePrepare_some_unset lib w b u hf]; rfl

theorem verify_nextId (lib : Lib) (key : Option String) (now iat : Nat) (w : World)
    (b : VerifyBody) : (verify lib key now iat w b).1.nextId = w.nextId := by
  cases h : findOne b.email w.users with
  | none => rw [verify_of_none lib key now iat w b h]
  | some u =>
    rcases hc : lib.verify b.token u.totpSecret now with _ | _ | _
    · rw [verify_of_throw lib key now iat w b u h hc]
    · rw [verify_of_reject lib key now iat w b u h hc]
    · by_cases he : b.email = ""
      · rw [verify_of_accept_empty lib key now iat w b u h hc he]
      · rw [verify_of_accept lib key now iat w b u h hc he]

theorem handle_wellFormed (lib : Lib) (key : Option String) (w : World) (r : Request)
    (h : w.WellFormed) : (handle lib key w r).WellFormed := by
  cases r with
  | profile b =>
    have hn := profile_nextId lib w b
    show (profile lib w b).1.WellFormed
    cases hf : findOne b.email w.users with
    | none =>
      have hu := profile_users_of_none lib w b hf
      rw [hf] at hn
      by_cases he : b.email = ""
      · rw [if_pos he] at hu
        exact wellFormed_same h hu (by rw [hn]; exact Nat.le_succ _)
      · rw [if_neg he] at hu
        exact wellFormed_insert _ h hu rfl (by rw [hn]; exact Nat.lt_succ_self _)
    | some u =>
      have hu := profile_users_of_some lib w b u hf
      rw [hf] at hn
      by_cases he : b.email = ""
      · rw [if_pos he] at hu
        exact wellFormed_same h hu (by rw [hn]; exact Nat.le_refl _)
      · rw [if_neg he] at hu
        exact wellFormed_update _ h hu (by rw [hn]; exact Nat.le_refl _)
  | verify b now iat =>
    show (verify lib key now iat w b).1.WellFormed
    have hn := verify_nextId lib key now iat w b
    rcases verify_users lib key now iat w b with hu | ⟨u, -, -, hu⟩
    · exact wellFormed_same h hu (by rw [hn])
    · exact wellFormed_update _ h hu (by rw [hn])

/-- Every world reached from the empty one by handling requests one after the other has
pairwise distinct `_id`s, all below the ObjectId counter. -/
theorem serve_wellFormed (lib : Lib) (key : Option String) (rs : List Request) (w : World)
    (h : w.WellFormed) : (serve lib key rs w).WellFormed := by
  induction rs generalizing w with
  | nil => exact h
  | cons r rs ih => exact ih _ (handle_wellFormed lib key w r h)

theorem emptyWorld_wellFormed : emptyWorld.WellFormed :=
  ⟨by decide, fun _ hu => nomatch hu⟩

end DigiBridge
